import Mathlib

set_option autoImplicit false

/-!
Verification of the kernox ECS runtime core: entity lifecycle (object-pooling
factory with deep reset), scene-aware collection registry, live collection
references (proxies), and the shared namespace-resolution algorithm.

The embedding is heap-based: Entity records, collection instances (ArrayList)
and CollectionProxy records live in indexed lists inside one state `KxState`;
object identity in the JS source is index identity here.  Operations are
translated from `src/entity/EntityFactory.ts`, `src/collection/ArrayList.ts`,
`src/collection/CollectionManager.ts` and `src/collection/CollectionProxy.ts`.
The Entity class itself and the smart-wrapper registry methods of the
CollectionManager are absent from the sources (only tests, the wiki and
compiled declarations mention them); those are modelled from the spec, as
marked on their doc comments.
-/

namespace Kernox

/-- JS attribute values: primitives, arrays, plain objects
(`constructor === Object`) and class instances (any other constructor,
identified by the constructor's name). -/
inductive Val where
  | num (n : Int)
  | str (s : String)
  | bool (b : Bool)
  | null
  | arr (elems : List Val)
  | obj (fields : List (String × Val))
  | inst (ctor : String) (fields : List (String × Val))

instance : Inhabited Val := ⟨Val.null⟩

/-- First-match lookup in an association list: `Map.get` of a JS `Map`, and
also reading a named own property of a JS object modelled as a field list. -/
def lookupA {α : Type} : List (String × α) → String → Option α
  | [], _ => none
  | (k₀, v) :: rest, k => if k₀ = k then some v else lookupA rest k

/-- Writing a key: an existing key keeps its position and gets the new value
(JS property write / `Map.set`); a new key is appended at the end. -/
def setKey {α : Type} : List (String × α) → String → α → List (String × α)
  | [], k, v => [(k, v)]
  | (k₀, v₀) :: rest, k, v =>
      if k₀ = k then (k, v) :: rest else (k₀, v₀) :: setKey rest k v

/-- Union of two JS `Set`s built by `new Set([...a, ...b])`: the elements of
`a` followed by those elements of `b` not already present. -/
def setUnion (a b : List String) : List String :=
  a ++ b.filter (fun x => !(a.contains x))

/-- JS `String.prototype.includes` for a single-character needle, on the
character-list representation (the core `String.contains` is equivalent but
is avoided to keep every definition kernel-computable). -/
def jsIncludes (needle : Char) (s : String) : Bool :=
  s.data.contains needle

/-- JS `String.prototype.startsWith`, on the character-list representation. -/
def jsStartsWith (pre s : String) : Bool :=
  pre.data.isPrefixOf s.data

/-- JS `String.prototype.split` with a one-character separator: every
occurrence splits, empty segments kept, the empty string yields one empty
segment. -/
def splitOnChar (sep : Char) : List Char → List (List Char)
  | [] => [[]]
  | c :: rest =>
      let r := splitOnChar sep rest
      if c = sep then [] :: r
      else
        match r with
        | [] => [[c]]
        | g :: gs => (c :: g) :: gs

/-- JS `type.split(".")`. -/
def jsSplitDot (s : String) : List String :=
  (splitOnChar '.' s.data).map String.mk

/-- The environment of default constructors: `new value.constructor()` in
`EntityFactory.deepAssign` produces an instance whose own fields are given by
this map (empty for a constructor that assigns no fields). -/
def CtorEnv : Type := String → List (String × Val)

mutual
/-- What `EntityFactory.deepAssign` stores at `recipient[key]` for a source
value: primitives are copied by value; an array becomes a fresh array filled
recursively; a plain object becomes `{}` filled recursively; a class instance
becomes `new value.constructor()` (its default fields from the environment)
overwritten recursively by the source's fields.  The `seen` cycle guard of the
source never fires on the tree-structured values of this model. -/
def deepCopy (env : CtorEnv) : Val → Val
  | .num n => .num n
  | .str s => .str s
  | .bool b => .bool b
  | .null => .null
  | .arr es => .arr (deepCopyList env es)
  | .obj fs => .obj (deepAssignFields env [] fs)
  | .inst c fs => .inst c (deepAssignFields env (env c) fs)

def deepCopyList (env : CtorEnv) : List Val → List Val
  | [] => []
  | v :: rest => deepCopy env v :: deepCopyList env rest

/-- `EntityFactory.deepAssign(recipient, prototype)` on field lists: for each
key of the prototype, in order, write the deep copy of its value onto the
recipient. -/
def deepAssignFields (env : CtorEnv) (recipient : List (String × Val)) :
    List (String × Val) → List (String × Val)
  | [] => recipient
  | (k, v) :: rest => deepAssignFields env (setKey recipient k (deepCopy env v)) rest
end

/-- Modelled from the spec: the Entity class (`src/entity/Entity.ts` is not
among the sources; only its tests, the wiki and compiled declarations refer to
it).  Per spec section 3: immutable `id` and `type` (held in internal,
underscore-prefixed slots, so `Object.keys` filtering in
`EntityFactory.resetEntityState` never removes them), an open attribute bag
(the own enumerable non-internal properties), named children (`__children`,
holding heap references), and a set of collection-membership names. -/
structure Entity where
  id : String
  type : String
  attrs : List (String × Val)
  children : List (String × Nat)
  __collections : List String

instance : Inhabited Entity := ⟨⟨"", "", [], [], []⟩⟩

namespace Entity

/-- Modelled from the spec: membership set accessor `collections()`. -/
def collections (e : Entity) : List String := e.__collections

/-- Modelled from the spec: `linkTo` adds a collection name to the membership
set (a JS `Set`: no duplicate is added). -/
def linkTo (e : Entity) (c : String) : Entity :=
  if e.__collections.contains c then e
  else { e with __collections := e.__collections ++ [c] }

/-- Modelled from the spec: `unlinkFrom` deletes a collection name from the
membership set. -/
def unlinkFrom (e : Entity) (c : String) : Entity :=
  { e with __collections := e.__collections.filter (fun x => x ≠ c) }

/-- Modelled from the spec: `belongsTo` tests membership. -/
def belongsTo (e : Entity) (c : String) : Bool :=
  e.__collections.contains c

/-- Modelled from the spec: `deleteChild` removes the named child slot. -/
def deleteChild (e : Entity) (name : String) : Entity :=
  { e with children := e.children.filter (fun kv => kv.1 ≠ name) }

end Entity

/-- One collection instance (`ArrayList`, `src/collection/ArrayList.ts`).
`className` is `this.constructor.name` — the name of the concrete subclass the
instance was built from.  `entities` holds entity heap references in insertion
order; `ids` is the `ids` set (which the source only ever deletes from);
`__changed` is the changed-since-creation flag. -/
structure ArrayList where
  className : String
  entities : List Nat
  ids : List String
  __changed : Bool

instance : Inhabited ArrayList := ⟨⟨"", [], [], false⟩⟩

/-- A prototype schema (`src/entity/PrototypeSchema`): default attributes, the
collections to join on creation, and parent prototypes (schema objects, not
names, per the source interface). -/
inductive PrototypeSchema where
  | mk (name : String) (attributes : List (String × Val))
       (collections : List String) (inherits : List PrototypeSchema)

def PrototypeSchema.name : PrototypeSchema → String
  | .mk n _ _ _ => n

def PrototypeSchema.attributes : PrototypeSchema → List (String × Val)
  | .mk _ a _ _ => a

def PrototypeSchema.collections : PrototypeSchema → List String
  | .mk _ _ c _ => c

def PrototypeSchema.inherits : PrototypeSchema → List PrototypeSchema
  | .mk _ _ _ i => i

/-- A live collection reference (`src/collection/CollectionProxy.ts`).
`_collection` is the heap reference of the currently bound instance.
`entities`/`__changed` are the snapshot taken by `updateInternalState` (in JS
`this.entities` aliases the bound array; no read accessor consults it).  The
user-supplied `onUpdateCallback` is modelled by a counter of its invocations. -/
structure CollectionProxy where
  collectionName : String
  _collection : Nat
  entities : List Nat
  __changed : Bool
  callbackCount : Nat

instance : Inhabited CollectionProxy := ⟨⟨"", 0, [], false, 0⟩⟩

/-- The whole mutable state: the entity heap, the collection-instance heap,
the proxy heap, the EntityFactory's fields (`types`, `pools`, `nextID`), the
CollectionManager's fields (`collectionTemplates` mapping qualified names to
constructor class names, `sceneCollections`, `activeScene`, and the
spec-modelled wrapper registry `wrappers`), the addon loader's active
namespaces, and the constructor environment used by `deepAssign`. -/
structure KxState where
  heap : List Entity
  insts : List ArrayList
  proxies : List CollectionProxy
  types : List (String × PrototypeSchema)
  pools : List (String × List Nat)
  nextID : Nat
  collectionTemplates : List (String × String)
  sceneCollections : List (String × List (String × Nat))
  activeScene : String
  wrappers : List (String × Nat)
  namespaces : List String
  ctors : CtorEnv

/-- `new Kernox()`: everything empty, the default scene pre-created. -/
def mkKernox : KxState :=
  { heap := [], insts := [], proxies := [], types := [], pools := [],
    nextID := 0, collectionTemplates := [],
    sceneCollections := [("default", [])], activeScene := "default",
    wrappers := [], namespaces := [], ctors := fun _ => [] }

/-- Replace the entity record at heap reference `e` by `f` of it (a JS
mutation of the entity object). -/
def updateEntity (s : KxState) (e : Nat) (f : Entity → Entity) : KxState :=
  { s with heap := s.heap.set e (f (s.heap.getD e default)) }

/-- The entity record at heap reference `e`. -/
def entityAt (s : KxState) (e : Nat) : Entity := s.heap.getD e default

/-- The collection instance at heap reference `i`. -/
def instAt (s : KxState) (i : Nat) : ArrayList := s.insts.getD i default

namespace ArrayList

/-- `ArrayList.insert`: no-op returning false when the entity is already
present (`indexOf`-based `has`); otherwise push the entity, link it to the
collection class's constructor name, and raise the changed flag. -/
def insert (s : KxState) (i : Nat) (e : Nat) : Bool × KxState :=
  let inst := instAt s i
  if inst.entities.contains e then (false, s)
  else
    let inst' := { inst with entities := inst.entities ++ [e], __changed := true }
    let s₁ := { s with insts := s.insts.set i inst' }
    (true, updateEntity s₁ e (fun ent => ent.linkTo inst.className))

/-- `ArrayList.remove`: false when `indexOf` misses; otherwise delete the
entity's id from `ids`, splice the entity out, unlink it from the constructor
name, and raise the changed flag.  `indexOf` + `splice(index,1)` removes the
first occurrence, which `List.erase` mirrors. -/
def remove (s : KxState) (i : Nat) (e : Nat) : Bool × KxState :=
  let inst := instAt s i
  if inst.entities.contains e then
    let inst' := { inst with
      ids := inst.ids.filter (fun x => x ≠ (entityAt s e).id)
      entities := inst.entities.erase e
      __changed := true }
    let s₁ := { s with insts := s.insts.set i inst' }
    (true, updateEntity s₁ e (fun ent => ent.unlinkFrom inst.className))
  else (false, s)

/-- `ArrayList.has`: `indexOf != -1`. -/
def has (s : KxState) (i : Nat) (e : Nat) : Bool :=
  (instAt s i).entities.contains e

/-- `ArrayList.sort(criteria)`: reorders `this.entities` in place using the
comparator (modelled by a boolean a-before-b relation) and touches nothing
else — in particular it leaves `__changed` alone. -/
def sort (s : KxState) (i : Nat) (le : Nat → Nat → Bool) : KxState :=
  let inst := instAt s i
  let inst' := { inst with entities := inst.entities.mergeSort (le · ·) }
  { s with insts := s.insts.set i inst' }

/-- `ArrayList.filter(criteria)`. -/
def filter (s : KxState) (i : Nat) (criteria : Nat → Bool) : List Nat :=
  (instAt s i).entities.filter criteria

/-- `ArrayList.asArray`: a shallow copy of the entity array (equal as a list
of references). -/
def asArray (s : KxState) (i : Nat) : List Nat :=
  (instAt s i).entities

/-- `ArrayList.get(index)`: `this.entities[index]`, undefined out of range. -/
def get (s : KxState) (i : Nat) (index : Nat) : Option Nat :=
  (instAt s i).entities.get? index

/-- `ArrayList.size`. -/
def size (s : KxState) (i : Nat) : Nat :=
  (instAt s i).entities.length

/-- The `changed` getter. -/
def changed (s : KxState) (i : Nat) : Bool :=
  (instAt s i).__changed

/-- Iteration (`Symbol.iterator`) yields the entity array in order. -/
def iter (s : KxState) (i : Nat) : List Nat :=
  (instAt s i).entities

end ArrayList

namespace CollectionManager

/-- The instance map of a scene (absent scene: no map). -/
def sceneMapOf (s : KxState) (scene : String) : Option (List (String × Nat)) :=
  lookupA s.sceneCollections scene

/-- `CollectionManager.resolveImplicitNamespace(collectionName, sceneName)`:
scan the active namespaces in order over the scene's instance map; keep the
first hit; a second hit throws the ambiguity error naming the bare name. -/
def resolveImplicitNamespace (s : KxState) (collectionName : String)
    (sceneName : String) : Except String (Option Nat) :=
  match sceneMapOf s sceneName with
  | none => .ok none
  | some sceneCollections => go sceneCollections s.namespaces none
where
  go (m : List (String × Nat)) : List String → Option Nat → Except String (Option Nat)
    | [], resolved => .ok resolved
    | ns :: rest, resolved =>
      match lookupA m (ns ++ "." ++ collectionName), resolved with
      | some r, none => go m rest (some r)
      | some _, some _ =>
          .error ("Ambiguous collection '" ++ collectionName ++
            "' was requested: a namespace must be specified before it ( Ex. namespace.collectionName ).")
      | none, resolved => go m rest resolved

/-- `CollectionManager.resolveTemplateNamespace(collectionName)`: the same
scan over the registered templates. -/
def resolveTemplateNamespace (s : KxState) (collectionName : String) :
    Except String (Option String) :=
  go s.namespaces none
where
  go : List String → Option String → Except String (Option String)
    | [], resolved => .ok resolved
    | ns :: rest, resolved =>
      match lookupA s.collectionTemplates (ns ++ "." ++ collectionName), resolved with
      | some r, none => go rest (some r)
      | some _, some _ =>
          .error ("Ambiguous collection template '" ++ collectionName ++
            "' was requested: a namespace must be specified before it ( Ex. namespace.collectionName ).")
      | none, resolved => go rest resolved

/-- `CollectionManager.ensureCollectionInScene(collectionName, Ctr)`: create
the active scene's map if missing, then return the existing instance or
construct a fresh one (`new Ctr()`: empty, changed flag down), registering it
in the active scene's map. -/
def ensureCollectionInScene (s : KxState) (collectionName : String)
    (ctor : String) : Nat × KxState :=
  let m := (sceneMapOf s s.activeScene).getD []
  match lookupA m collectionName with
  | some c => (c, { s with sceneCollections := setKey s.sceneCollections s.activeScene m })
  | none =>
      let ref := s.insts.length
      (ref, { s with
        insts := s.insts ++ [{ className := ctor, entities := [], ids := [], __changed := false }],
        sceneCollections := setKey s.sceneCollections s.activeScene (setKey m collectionName ref) })

/-- `CollectionManager.get(collectionName)`: direct lookup in the active
scene's instance map, then implicit-namespace resolution there; failing both,
direct or implicit-namespace template lookup, lazily instantiating into the
active scene; failing everything, the not-registered error. -/
def get (s : KxState) (collectionName : String) : Except String (Nat × KxState) := do
  let found ←
    match sceneMapOf s s.activeScene with
    | some m =>
      match lookupA m collectionName with
      | some c => pure (some c)
      | none => resolveImplicitNamespace s collectionName s.activeScene
    | none => pure none
  match found with
  | some c => .ok (c, s)
  | none =>
    let tmpl ←
      match lookupA s.collectionTemplates collectionName with
      | some t => pure (some t)
      | none => resolveTemplateNamespace s collectionName
    match tmpl with
    | some ctor => .ok (ensureCollectionInScene s collectionName ctor)
    | none => .error ("Collection '" ++ collectionName ++ "' is not registered.")

/-- `CollectionManager.use(Ctr, namespace)`: qualify the constructor's class
name, refuse duplicates, store the template, and instantiate it eagerly when
the default scene is active.  (The `isSubclassOf` guard always passes for the
`ArrayList` subclasses this model covers.) -/
def use (s : KxState) (ctor : String) (ns : String) : Except String KxState :=
  let name := if ns = "" then ctor else ns ++ "." ++ ctor
  if (lookupA s.collectionTemplates name).isSome then
    .error ("Cannot register collection '" ++ name ++ "' because it already exists")
  else
    let s₁ := { s with collectionTemplates := setKey s.collectionTemplates name ctor }
    if s₁.activeScene = "default" then .ok (ensureCollectionInScene s₁ name ctor).2
    else .ok s₁

/-- `CollectionManager.addEntityTo(entity, collectionName)`: `get`, insert,
and link the entity to the name it was added under. -/
def addEntityTo (s : KxState) (e : Nat) (collectionName : String) :
    Except String KxState := do
  let (c, s₁) ← get s collectionName
  let (_, s₂) := ArrayList.insert s₁ c e
  .ok (updateEntity s₂ e (fun ent => ent.linkTo collectionName))

/-- `CollectionManager.removeEntityFrom(entity, collectionName)`. -/
def removeEntityFrom (s : KxState) (e : Nat) (collectionName : String) :
    Except String KxState := do
  let (c, s₁) ← get s collectionName
  let (_, s₂) := ArrayList.remove s₁ c e
  .ok (updateEntity s₂ e (fun ent => ent.unlinkFrom collectionName))

/-- The instantiation loop of `switchScene`: for every registered template not
yet present in the scene's map, construct a fresh empty instance there. -/
def instantiateMissing (s : KxState) (scene : String) :
    List (String × String) → KxState
  | [] => s
  | (name, ctor) :: rest =>
      let m := (sceneMapOf s scene).getD []
      if (lookupA m name).isSome then instantiateMissing s scene rest
      else
        let ref := s.insts.length
        let s' := { s with
          insts := s.insts ++ [{ className := ctor, entities := [], ids := [], __changed := false }],
          sceneCollections := setKey s.sceneCollections scene (setKey m name ref) }
        instantiateMissing s' scene rest

/-- `CollectionManager.switchScene(sceneName)`: no-op on the active scene;
otherwise make sure the scene has a map, instantiate every missing registered
template there, and make it active. -/
def switchScene (s : KxState) (sceneName : String) : KxState :=
  if sceneName = s.activeScene then s
  else
    let s₁ :=
      if (lookupA s.sceneCollections sceneName).isSome then s
      else { s with sceneCollections := setKey s.sceneCollections sceneName [] }
    let s₂ := instantiateMissing s₁ sceneName s₁.collectionTemplates
    { s₂ with activeScene := sceneName }

/-- `CollectionManager.getActiveScene()`. -/
def getActiveScene (s : KxState) : String := s.activeScene

end CollectionManager

mutual
/-- Termination measure for the inheritance-resolution loop: one unit per
schema in the tree. -/
def schemaWeight : PrototypeSchema → Nat
  | .mk _ _ _ inherits => 1 + schemaListWeight inherits

def schemaListWeight : List PrototypeSchema → Nat
  | [] => 0
  | p :: rest => schemaWeight p + schemaListWeight rest
end

theorem schemaListWeight_append (a b : List PrototypeSchema) :
    schemaListWeight (a ++ b) = schemaListWeight a + schemaListWeight b := by
  induction a with
  | nil => simp [schemaListWeight]
  | cons p rest ih => simp [schemaListWeight, ih]; omega

theorem schemaWeight_eq (p : PrototypeSchema) :
    schemaWeight p = 1 + schemaListWeight p.inherits := by
  cases p; rfl

theorem schemaListWeight_reverse (l : List PrototypeSchema) :
    schemaListWeight l.reverse = schemaListWeight l := by
  induction l with
  | nil => rfl
  | cons p rest ih =>
      simp [List.reverse_cons, schemaListWeight_append, schemaListWeight, ih]
      omega

namespace EntityFactory

/-- The stack-driven inheritance loop of `EntityFactory.prototype`: the JS
stack pushes/pops at the array's end, so it is held here with its top at the
head (the declared parents enter reversed).  Each iteration rebuilds the
child's attributes as `deepAssign({}, parent); deepAssign(·, child)` — the
parent's values applied first, the accumulated child values last — unions the
collection sets, and pushes the parent's own parents. -/
def flattenInherits (env : CtorEnv) (attrs : List (String × Val))
    (colls : List String) (stack : List PrototypeSchema) :
    List (String × Val) × List String :=
  match stack with
  | [] => (attrs, colls)
  | current :: rest =>
      let temp := deepAssignFields env (deepAssignFields env [] current.attributes) attrs
      let colls' := setUnion colls current.collections
      flattenInherits env temp colls' (current.inherits.reverse ++ rest)
termination_by schemaListWeight stack
decreasing_by
  simp only [schemaListWeight_append, schemaListWeight_reverse, schemaListWeight, schemaWeight_eq]
  omega

/-- `EntityFactory.prototype(prototype, namespace)`: qualify the name, refuse
duplicates, resolve inheritance eagerly through the stack loop, and store the
resolved schema. -/
def prototype (s : KxState) (proto : PrototypeSchema) (ns : String) :
    Except String KxState :=
  let name := if ns = "" then proto.name else ns ++ "." ++ proto.name
  if (lookupA s.types name).isSome then
    .error ("The type named '" ++ name ++ "' has already been registered")
  else
    let (attrs, colls) :=
      flattenInherits s.ctors proto.attributes proto.collections proto.inherits.reverse
    let resolved : PrototypeSchema := .mk proto.name attrs colls proto.inherits
    .ok { s with types := setKey s.types name resolved }

/-- `EntityFactory.resolveImplicitNamespace(type)`: scan the active
namespaces over the registered types; a second hit throws the ambiguity error
naming the bare type. -/
def resolveImplicitNamespace (s : KxState) (type : String) :
    Except String (Option PrototypeSchema) :=
  go s.namespaces none
where
  go : List String → Option PrototypeSchema → Except String (Option PrototypeSchema)
    | [], resolved => .ok resolved
    | ns :: rest, resolved =>
      match lookupA s.types (ns ++ "." ++ type), resolved with
      | some r, none => go rest (some r)
      | some _, some _ =>
          .error ("Ambiguous entity type '" ++ type ++
            "' was requested: a namespace must be specified before it ( Ex. namespace.type ).")
      | none, resolved => go rest resolved

/-- The type-resolution step of `create`: direct lookup in `types`, then the
implicit-namespace fallback. -/
def resolveType (s : KxState) (type : String) :
    Except String (Option PrototypeSchema) :=
  match lookupA s.types type with
  | some p => .ok (some p)
  | none => resolveImplicitNamespace s type

/-- `EntityFactory.resetEntityState(entity, prototype)`: delete every own key
that neither starts with an underscore nor belongs to the prototype's
attribute set; delete every child; unlink every collection; then deep-assign
the prototype's default attributes back on. -/
def resetEntityState (env : CtorEnv) (ent : Entity) (proto : PrototypeSchema) :
    Entity :=
  let prototypeKeys := proto.attributes.map Prod.fst
  let kept := ent.attrs.filter
    (fun kv => jsStartsWith "_" kv.1 || prototypeKeys.contains kv.1)
  { ent with
    attrs := deepAssignFields env kept proto.attributes
    children := []
    __collections := [] }

/-- The parameter-application loop of `create`: a parameter overwrites the
entity's attribute (value used as-is, no deep copy) exactly when the key is
already present on the entity and does not contain an underscore anywhere
(`param in entity && !param.includes("_")`). -/
def applyParams (ent : Entity) : List (String × Val) → Entity
  | [] => ent
  | (k, v) :: rest =>
      if (lookupA ent.attrs k).isSome && !(jsIncludes '_' k) then
        applyParams { ent with attrs := setKey ent.attrs k v } rest
      else applyParams ent rest

/-- The namespace context `create` derives from its `type` argument:
`type.split(".")` of length two yields the first segment. -/
def contextOf (type : String) : Option String :=
  match jsSplitDot type with
  | [ns, _] => some ns
  | _ => none

/-- The collection-joining loop of `create`: each prototype collection name,
qualified with the derived context when there is one, receives the entity via
`CollectionManager.addEntityTo`, and the entity is linked to the (qualified)
name. -/
def joinCollections (context : Option String) (e : Nat) :
    KxState → List String → Except String KxState
  | s, [] => .ok s
  | s, c :: rest => do
      let c' := match context with
                | some ctx => ctx ++ "." ++ c
                | none => c
      let s₁ ← CollectionManager.addEntityTo s e c'
      joinCollections context e (updateEntity s₁ e (fun ent => ent.linkTo c')) rest

/-- `EntityFactory.create(type, params)`: resolve the type (unknown types
fail with the null-type error); pop the type's pool and reset the recycled
entity, or allocate a fresh entity (`id = nextID++` stringified) and
deep-assign the prototype defaults; apply the parameters; derive the
namespace context; join the prototype's collections.  Returns the heap
reference of the entity. -/
def create (s : KxState) (type : String) (params : List (String × Val)) :
    Except String (Nat × KxState) := do
  let proto? ← resolveType s type
  match proto? with
  | none => .error ("Cannot create entity of null type '" ++ type ++ "'")
  | some proto =>
    let (eref, s₁) :=
      match lookupA s.pools type with
      | some pool =>
        match pool.getLast? with
        | some e =>
            let s' := { s with pools := setKey s.pools type pool.dropLast }
            (e, updateEntity s' e (fun ent => resetEntityState s.ctors ent proto))
        | none => allocFresh s type proto
      | none => allocFresh s type proto
    let s₂ := updateEntity s₁ eref (fun ent => applyParams ent params)
    let s₃ ← joinCollections (contextOf type) eref s₂ proto.collections
    .ok (eref, s₃)
where
  /-- The fresh-allocation arm: `new Entity('' + nextID++, type)` followed by
  `deepAssign(entity, prototype.attributes)`. -/
  allocFresh (s : KxState) (type : String) (proto : PrototypeSchema) :
      Nat × KxState :=
    let ent : Entity :=
      { id := toString s.nextID, type := type,
        attrs := deepAssignFields s.ctors [] proto.attributes,
        children := [], __collections := [] }
    (s.heap.length, { s with heap := s.heap ++ [ent], nextID := s.nextID + 1 })

/-- `EntityFactory.sendToRest(entity)`: remove the entity from every
collection in (a snapshot of) its membership set, unlinking as it goes, then
push it onto its type's pool (creating the pool if needed). -/
def sendToRest (s : KxState) (e : Nat) : Except String KxState := do
  let ent := entityAt s e
  let s₁ ← leaveAll e s ent.collections
  let type := ent.type
  let pool := (lookupA s₁.pools type).getD []
  .ok { s₁ with pools := setKey s₁.pools type (pool ++ [e]) }
where
  /-- The removal loop over the snapshot of the membership set. -/
  leaveAll (e : Nat) : KxState → List String → Except String KxState
    | s, [] => .ok s
    | s, c :: rest => do
        let s₁ ← CollectionManager.removeEntityFrom s e c
        leaveAll e (updateEntity s₁ e (fun ent => ent.unlinkFrom c)) rest

end EntityFactory

namespace CollectionProxy

/-- `CollectionProxy.updateInternalState()`: refresh the snapshot fields from
the currently bound instance.  (In JS `this.entities` receives a reference to
the bound array; the snapshot is never consulted by a read accessor.) -/
def updateInternalState (s : KxState) (p : CollectionProxy) : CollectionProxy :=
  let inst := instAt s p._collection
  { p with entities := inst.entities, __changed := inst.__changed }

/-- The `CollectionProxy` constructor: bind the name and the initial
instance, then take the first snapshot. -/
def make (s : KxState) (collectionName : String) (initialCollection : Nat) :
    CollectionProxy :=
  updateInternalState s
    { collectionName := collectionName, _collection := initialCollection,
      entities := [], __changed := false, callbackCount := 0 }

/-- `CollectionProxy.updateCollection(newCollection)` on the proxy at heap
reference `pref`: rebind `_collection`, refresh the snapshot, and invoke the
update callback (modelled by its invocation counter). -/
def updateCollection (s : KxState) (pref : Nat) (newCollection : Nat) : KxState :=
  let p := s.proxies.getD pref default
  let p₁ := updateInternalState s { p with _collection := newCollection }
  let p₂ := { p₁ with callbackCount := p₁.callbackCount + 1 }
  { s with proxies := s.proxies.set pref p₂ }

/-- The proxy record at heap reference `pref`. -/
def proxyAt (s : KxState) (pref : Nat) : CollectionProxy :=
  s.proxies.getD pref default

/-- `CollectionProxy.has`: delegates to the bound instance (`?? false` never
fires for the ArrayList instances of this model). -/
def has (s : KxState) (pref : Nat) (e : Nat) : Bool :=
  ArrayList.has s (proxyAt s pref)._collection e

/-- `CollectionProxy.size`: delegates to the bound instance. -/
def size (s : KxState) (pref : Nat) : Nat :=
  ArrayList.size s (proxyAt s pref)._collection

/-- `CollectionProxy.get(index)`: delegates to the bound instance. -/
def get (s : KxState) (pref : Nat) (index : Nat) : Option Nat :=
  ArrayList.get s (proxyAt s pref)._collection index

/-- `CollectionProxy.filter(criteria)`: delegates to the bound instance. -/
def filter (s : KxState) (pref : Nat) (criteria : Nat → Bool) : List Nat :=
  ArrayList.filter s (proxyAt s pref)._collection criteria

/-- `CollectionProxy.asArray()`: delegates to the bound instance. -/
def asArray (s : KxState) (pref : Nat) : List Nat :=
  ArrayList.asArray s (proxyAt s pref)._collection

/-- Iteration: yields the bound instance's iterator. -/
def iter (s : KxState) (pref : Nat) : List Nat :=
  ArrayList.iter s (proxyAt s pref)._collection

/-- The `changed` getter: refreshes the internal state from the bound
instance and returns the refreshed `__changed` — the bound instance's current
flag. -/
def changed (s : KxState) (pref : Nat) : Bool :=
  (updateInternalState s (proxyAt s pref)).__changed

/-- `CollectionProxy.insert`: delegates to the bound instance, then refreshes
the snapshot. -/
def insert (s : KxState) (pref : Nat) (e : Nat) : Bool × KxState :=
  let p := proxyAt s pref
  let (result, s₁) := ArrayList.insert s p._collection e
  (result, { s₁ with proxies := s₁.proxies.set pref (updateInternalState s₁ p) })

/-- `CollectionProxy.remove`: delegates to the bound instance, then refreshes
the snapshot. -/
def remove (s : KxState) (pref : Nat) (e : Nat) : Bool × KxState :=
  let p := proxyAt s pref
  let (result, s₁) := ArrayList.remove s p._collection e
  (result, { s₁ with proxies := s₁.proxies.set pref (updateInternalState s₁ p) })

end CollectionProxy

namespace CollectionManager

/-- Modelled from the spec: `CollectionManager.getSmartWrapper(name)` (the
method is absent from the sources; only its tests call it).  Per spec section
4.3 it returns the single shared Live Collection Reference for the name,
creating it on first request seeded with what `get(name)` currently returns
— failing with the same error as `get` when nothing resolves — and
registering it, keyed by the name, for future update notifications. -/
def getSmartWrapper (s : KxState) (name : String) : Except String (Nat × KxState) :=
  match lookupA s.wrappers name with
  | some pref => .ok (pref, s)
  | none => do
      let (inst, s₁) ← get s name
      let pref := s₁.proxies.length
      let p := CollectionProxy.make s₁ name inst
      .ok (pref, { s₁ with proxies := s₁.proxies ++ [p],
                           wrappers := setKey s₁.wrappers name pref })

/-- Modelled from the spec: `CollectionManager.notifyWrappers(name,
newInstance)` rebinds the live reference registered under the name (the
registry holds at most one per name) to the new instance, invoking its update
callback; with no wrapper registered it does nothing. -/
def notifyWrappers (s : KxState) (name : String) (newInstance : Nat) : KxState :=
  match lookupA s.wrappers name with
  | some pref => CollectionProxy.updateCollection s pref newInstance
  | none => s

/-- Modelled from the spec: `CollectionManager.unregisterWrapper(wrapper)`
removes the association so the wrapper no longer receives notifications;
idempotent, unknown wrappers are not an error. -/
def unregisterWrapper (s : KxState) (pref : Nat) : KxState :=
  { s with wrappers := s.wrappers.filter (fun kv => kv.2 ≠ pref) }

end CollectionManager


/-! Scenario fixtures used by the concrete theorems and witnesses below. -/

/-- The parent prototype `P1` of the inheritance-merge scenario. -/
def c3P1 : PrototypeSchema := .mk "P1" [("x", .num 0), ("y", .num 0)] ["P1c"] []

/-- The parent prototype `P2` of the inheritance-merge scenario. -/
def c3P2 : PrototypeSchema := .mk "P2" [("y", .num 9), ("z", .num 9)] ["P2c"] []

/-- The child prototype with `inherits = [P1, P2]` and own `x = 1`. -/
def c3Child : PrototypeSchema := .mk "Child" [("x", .num 1)] ["Cc"] [c3P1, c3P2]

/-- A state with a prototype `T` whose attributes are `max_hp = 1` and
`hp = 5` (exactly what registering it through `EntityFactory.prototype` on a
fresh state stores, no inheritance involved). -/
def c6State : KxState :=
  { mkKernox with types := [("T", .mk "T" [("max_hp", .num 1), ("hp", .num 5)] [] [])] }

/-- A state holding one `Players` collection instance with two entities in
descending order and the changed flag down — the shape the repository's own
ArrayList tests build by pushing onto `entities` directly. -/
def c9State : KxState :=
  { mkKernox with
    heap := [⟨"0", "T", [], [], ["Players"]⟩, ⟨"1", "T", [], [], ["Players"]⟩],
    insts := [⟨"Players", [1, 0], [], false⟩] }

/-- A registered `Players` collection (class name `Players`) under the
namespace-qualified name `game.Players`, with one entity on the heap:
fixture for the constructor-name linking behavior. -/
def c10Base : KxState :=
  { mkKernox with
    heap := [⟨"0", "T", [], [], []⟩]
    namespaces := ["game"] }

/-- `c10Base` after `use(Players, "game")`. -/
def c10State : KxState :=
  ((CollectionManager.use c10Base "Players" "game").toOption).getD mkKernox

/-- `c10State` after `addEntityTo(entity 0, "game.Players")`. -/
def c10State2 : KxState :=
  ((CollectionManager.addEntityTo c10State 0 "game.Players").toOption).getD mkKernox

/-- A state with one live reference bound to instance 0 and a second, empty
`Players` instance at reference 1 (the shape `switchScene` produces). -/
def c7State : KxState :=
  { mkKernox with
    heap := [⟨"0", "T", [], [], []⟩]
    insts := [⟨"Players", [], [], false⟩, ⟨"Players", [], [], false⟩]
    proxies := [⟨"Players", 0, [], false, 0⟩] }

/-- A state with a prototype `P` joining `Players`, a registered `Players`
collection instance, and the sole entity 0 (of type `P`) sitting in the `P`
pool — the state right after `create` then `sendToRest`. -/
def c1State : KxState :=
  { mkKernox with
    heap := [⟨"0", "P", [("hp", .num 5)], [], []⟩]
    insts := [⟨"Players", [], [], false⟩]
    types := [("P", .mk "P" [("hp", .num 5)] ["Players"] [])]
    pools := [("P", [0])]
    collectionTemplates := [("Players", "Players")]
    sceneCollections := [("default", [("Players", 0)])] }

/-- `c1State` after `create("P")` recycles the pooled entity. -/
def c1After : KxState :=
  (((EntityFactory.create c1State "P" []).toOption).getD (0, mkKernox)).2

/-- `c1After` after `sendToRest(entity 0)` returns the entity to its pool. -/
def c1Send : KxState :=
  ((EntityFactory.sendToRest c1After 0).toOption).getD mkKernox

/-- One `Players` template with the default scene holding instance 0, which
contains the sole entity — the configuration of the scene-isolation scenario
before switching to a fresh scene. -/
def c4State : KxState :=
  { mkKernox with
    heap := [⟨"0", "P", [], [], ["Players"]⟩]
    insts := [⟨"Players", [0], [], true⟩]
    collectionTemplates := [("Players", "Players")]
    sceneCollections := [("default", [("Players", 0)])] }

/-- A used entity carrying an ad hoc attribute, a child and a membership,
about to be reset against its prototype. -/
def c2Ent : Entity := ⟨"7", "P", [("hp", .num 1), ("junk", .num 2)], [("ch", 3)], ["Players"]⟩

/-- The prototype `c2Ent` is reset against. -/
def c2Proto : PrototypeSchema := .mk "P" [("hp", .num 5)] ["Players"] []

/-- Two addons `a` and `b`, both active, both registering a type `Foo`, a
collection template `Col`, and (in the default scene) a `Col` instance. -/
def c5State : KxState :=
  { mkKernox with
    types := [("a.Foo", .mk "Foo" [] [] []), ("b.Foo", .mk "Foo" [] [] [])]
    collectionTemplates := [("a.Col", "Col"), ("b.Col", "Col")]
    sceneCollections := [("default", [("a.Col", 0), ("b.Col", 1)])]
    insts := [⟨"Col", [], [], false⟩, ⟨"Col", [], [], false⟩]
    namespaces := ["a", "b"] }

/-- Entity-level facts preserved by the collection-joining and -leaving
machinery: the heap length, every entity's id and type, and the factory's
pools and types. -/
def EntityShapeFrame (s s' : KxState) : Prop :=
  s'.heap.length = s.heap.length
  ∧ (∀ x, (entityAt s' x).id = (entityAt s x).id)
  ∧ (∀ x, (entityAt s' x).type = (entityAt s x).type)
  ∧ s'.pools = s.pools ∧ s'.types = s.types

/-- The fields `CollectionManager.get` never changes: everything except the
collection-instance heap and the scene maps. -/
def GetFrame (s s' : KxState) : Prop :=
  s'.heap = s.heap ∧ s'.pools = s.pools ∧ s'.types = s.types ∧ s'.nextID = s.nextID
  ∧ s'.proxies = s.proxies ∧ s'.wrappers = s.wrappers ∧ s'.namespaces = s.namespaces
  ∧ s'.collectionTemplates = s.collectionTemplates ∧ s'.activeScene = s.activeScene
  ∧ s'.ctors = s.ctors

/-- `c7State` after rebinding the live reference to instance 1. -/
def c7After : KxState := CollectionProxy.updateCollection c7State 0 1

/-- `c10State` after a first `getSmartWrapper("game.Players")`. -/
def c8S1 : KxState :=
  (((CollectionManager.getSmartWrapper c10State "game.Players").toOption).getD
    (0, mkKernox)).2

/-- `c7After` after a mutation of the newly bound instance. -/
def c7Mut : KxState := (ArrayList.insert c7After 1 0).2

/-! Generic lemmas on the association-list and heap helpers. -/

theorem lookupA_setKey_self {α : Type} (m : List (String × α)) (k : String) (v : α) :
    lookupA (setKey m k v) k = some v := by
  induction m with
  | nil => simp [setKey, lookupA]
  | cons kv rest ih =>
      by_cases h : kv.1 = k
      · simp [setKey, h, lookupA]
      · simp [setKey, h, lookupA, ih]

theorem lookupA_setKey_ne {α : Type} (m : List (String × α)) (k k' : String) (v : α)
    (h : k' ≠ k) : lookupA (setKey m k v) k' = lookupA m k' := by
  induction m with
  | nil => simp [setKey, lookupA, Ne.symm h]
  | cons kv rest ih =>
      by_cases hk : kv.1 = k
      · simp [setKey, hk, lookupA, h, Ne.symm h]
      · simp [setKey, hk, lookupA, ih]

theorem listGetD_set_self {α : Type} (l : List α) (i : Nat) (a d : α)
    (h : i < l.length) : (l.set i a)[i]?.getD d = a := by
  simp [List.getElem?_set_self, h]

theorem listGetD_set_ne {α : Type} (l : List α) (i j : Nat) (a d : α)
    (h : i ≠ j) : (l.set i a)[j]?.getD d = l[j]?.getD d := by
  simp [List.getElem?_set_ne h]

theorem listGetD_append_left {α : Type} (l l' : List α) (i : Nat) (d : α)
    (h : i < l.length) : (l ++ l')[i]?.getD d = l[i]?.getD d := by
  simp [List.getElem?_append_left h]

theorem listGetD_append_self {α : Type} (l : List α) (a d : α) :
    (l ++ [a])[l.length]?.getD d = a := by
  simp

theorem flattenInherits_nil (env : CtorEnv) (attrs : List (String × Val))
    (colls : List String) :
    EntityFactory.flattenInherits env attrs colls [] = (attrs, colls) := by
  rw [EntityFactory.flattenInherits]

theorem flattenInherits_cons (env : CtorEnv) (attrs : List (String × Val))
    (colls : List String) (current : PrototypeSchema) (rest : List PrototypeSchema) :
    EntityFactory.flattenInherits env attrs colls (current :: rest) =
      EntityFactory.flattenInherits env
        (deepAssignFields env (deepAssignFields env [] current.attributes) attrs)
        (setUnion colls current.collections)
        (current.inherits.reverse ++ rest) := by
  rw [EntityFactory.flattenInherits]

/-- C3 (confirmed): registering `Child` with `inherits = [P1, P2]`, own
attributes `x = 1`, where `P1 = {x:0, y:0}` and `P2 = {y:9, z:9}`, stores an
eagerly resolved schema whose effective attributes are `x = 1` (child wins),
`y = 9` (the later-declared parent P2 overrides P1), `z = 9`, and whose
effective collections set is the union of Child's, P1's and P2's. -/
theorem prototype_inheritance_merge :
    ((EntityFactory.prototype mkKernox c3Child "").map
      (fun s => (lookupA s.types "Child").map
        (fun r => (lookupA r.attributes "x", lookupA r.attributes "y",
                   lookupA r.attributes "z", r.collections))))
      = .ok (some (some (.num 1), some (.num 9), some (.num 9), ["Cc", "P2c", "P1c"]))
    ∧ ∀ c : String,
        c ∈ (["Cc", "P2c", "P1c"] : List String) ↔
          (c ∈ c3Child.collections ∨ c ∈ c3P1.collections ∨ c ∈ c3P2.collections) := by
  constructor
  · simp [EntityFactory.prototype, c3Child, c3P1, c3P2, mkKernox, lookupA,
      PrototypeSchema.name, PrototypeSchema.attributes, PrototypeSchema.collections,
      PrototypeSchema.inherits, flattenInherits_cons, flattenInherits_nil,
      deepAssignFields, deepCopy, setKey, setUnion, setKey, Except.map]
  · intro c
    simp [c3Child, c3P1, c3P2, PrototypeSchema.collections]
    tauto

/-! Lemmas on the modelled Entity membership operations. -/

theorem linkTo_self_mem (ent : Entity) (c : String) :
    c ∈ (ent.linkTo c).__collections := by
  by_cases h : c ∈ ent.__collections
  · simp [Entity.linkTo, h]
  · simp [Entity.linkTo, h]

theorem linkTo_mono (ent : Entity) (c x : String)
    (h : x ∈ ent.__collections) : x ∈ (ent.linkTo c).__collections := by
  by_cases hc : c ∈ ent.__collections
  · simpa [Entity.linkTo, hc] using h
  · simp [Entity.linkTo, hc]
    exact Or.inl h

theorem belongsTo_iff (ent : Entity) (c : String) :
    ent.belongsTo c = true ↔ c ∈ ent.__collections := by
  simp [Entity.belongsTo]

/-- C9 counterexample: on a collection holding two entities out of order with
the changed flag down (the shape the repository's ArrayList tests build by
pushing entities directly), `sort` reorders the entity array yet the changed
flag still reads false afterwards — refuting the claim that the flag reads
true after `sort`. -/
theorem sort_leaves_changed_down :
    (instAt (ArrayList.sort c9State 0 (fun a b => decide (a ≤ b))) 0).entities = [0, 1]
    ∧ (instAt c9State 0).entities = [1, 0]
    ∧ ArrayList.changed (ArrayList.sort c9State 0 (fun a b => decide (a ≤ b))) 0 = false := by
  refine ⟨?_, rfl, ?_⟩ <;>
    simp [ArrayList.sort, ArrayList.changed, c9State, mkKernox, instAt, List.mergeSort]

/-- C9 (corrected): insert of a not-yet-present entity and remove of a
present entity set the changed flag; `sort` mutates the order but leaves the
changed flag exactly as it was — it does not set it. -/
theorem changed_flag_mutations (s : KxState) (i e : Nat) (le : Nat → Nat → Bool) :
    (i < s.insts.length → ArrayList.has s i e = false →
      ArrayList.changed (ArrayList.insert s i e).2 i = true)
    ∧ (i < s.insts.length → ArrayList.has s i e = true →
      ArrayList.changed (ArrayList.remove s i e).2 i = true)
    ∧ ArrayList.changed (ArrayList.sort s i le) i = ArrayList.changed s i := by
  refine ⟨?_, ?_, ?_⟩
  · intro hi hhas
    have hh : ¬ (e ∈ (instAt s i).entities) := by
      simpa [ArrayList.has] using hhas
    simp only [ArrayList.insert, ArrayList.changed, updateEntity]
    simp only [instAt, List.getD_eq_getElem?_getD] at hh ⊢
    simp [hh, listGetD_set_self _ _ _ _ hi]
  · intro hi hhas
    have hh : e ∈ (instAt s i).entities := by
      simpa [ArrayList.has] using hhas
    simp only [ArrayList.remove, ArrayList.changed, updateEntity]
    simp only [instAt, List.getD_eq_getElem?_getD] at hh ⊢
    simp [hh, listGetD_set_self _ _ _ _ hi]
  · by_cases hi : i < s.insts.length
    · simp only [ArrayList.sort, ArrayList.changed, instAt, List.getD_eq_getElem?_getD]
      rw [listGetD_set_self _ _ _ _ hi]
    · simp only [ArrayList.sort, ArrayList.changed, instAt]
      rw [List.set_eq_of_length_le (by omega)]

/-- Witness for C9: the amended statement applied on the concrete fixture. -/
theorem changed_flag_mutations_witness :
    ArrayList.changed (ArrayList.insert c9State 0 2).2 0 = true
    ∧ ArrayList.changed (ArrayList.remove c9State 0 1).2 0 = true
    ∧ ArrayList.changed (ArrayList.sort c9State 0 (fun a b => decide (a ≤ b))) 0 =
        ArrayList.changed c9State 0 :=
  ⟨(changed_flag_mutations c9State 0 2 (fun a b => decide (a ≤ b))).1
      (by decide) (by decide),
   (changed_flag_mutations c9State 0 1 (fun a b => decide (a ≤ b))).2.1
      (by decide) (by decide),
   (changed_flag_mutations c9State 0 1 (fun a b => decide (a ≤ b))).2.2⟩

/-- C10 (implicit claim): `ArrayList.insert` links the inserted entity under
the collection class's constructor name, independently of the registration
name; `CollectionManager.addEntityTo(e, n)` therefore leaves the entity
linked both to `n` and to the resolved instance's bare class name (two
distinct entries whenever `n` is namespace-qualified); and `ArrayList.remove`
unlinks exactly the constructor-name entry, nothing else. -/
theorem insert_links_constructor_name :
    (∀ (s : KxState) (i e : Nat), i < s.insts.length → e < s.heap.length →
      ArrayList.has s i e = false →
      (instAt s i).className ∈ (entityAt (ArrayList.insert s i e).2 e).__collections)
    ∧ (∀ (s : KxState) (e : Nat) (n : String) (i : Nat) (s₁ : KxState),
      CollectionManager.get s n = .ok (i, s₁) → i < s₁.insts.length →
      e < s₁.heap.length → ArrayList.has s₁ i e = false →
      ∃ s', CollectionManager.addEntityTo s e n = .ok s'
        ∧ n ∈ (entityAt s' e).__collections
        ∧ (instAt s₁ i).className ∈ (entityAt s' e).__collections)
    ∧ (∀ (s : KxState) (i e : Nat), i < s.insts.length → e < s.heap.length →
      ArrayList.has s i e = true →
      (entityAt (ArrayList.remove s i e).2 e).__collections =
        (entityAt s e).__collections.filter (fun x => x ≠ (instAt s i).className)) := by
  refine ⟨?_, ?_, ?_⟩
  · intro s i e hi he hhas
    have hh : ¬ (e ∈ (instAt s i).entities) := by
      simpa [ArrayList.has] using hhas
    simp only [ArrayList.insert, entityAt, updateEntity, instAt,
      List.getD_eq_getElem?_getD] at hh ⊢
    simp [hh]
    rw [listGetD_set_self _ _ _ _ (by simpa using he)]
    exact linkTo_self_mem _ _
  · intro s e n i s₁ hget hi he hhas
    have hh : ¬ (e ∈ (instAt s₁ i).entities) := by
      simpa [ArrayList.has] using hhas
    refine ⟨updateEntity (ArrayList.insert s₁ i e).2 e (fun ent => ent.linkTo n),
      ?_, ?_, ?_⟩
    · simp only [CollectionManager.addEntityTo, hget, bind, Except.bind]
    · simp only [ArrayList.insert, entityAt, updateEntity, instAt,
        List.getD_eq_getElem?_getD] at hh ⊢
      simp [hh]
      rw [listGetD_set_self _ _ _ _ (by simpa using he),
          listGetD_set_self _ _ _ _ (by simpa using he)]
      exact linkTo_self_mem _ _
    · simp only [ArrayList.insert, entityAt, updateEntity, instAt,
        List.getD_eq_getElem?_getD] at hh ⊢
      simp [hh]
      rw [listGetD_set_self _ _ _ _ (by simpa using he),
          listGetD_set_self _ _ _ _ (by simpa using he)]
      exact linkTo_mono _ _ _ (linkTo_self_mem _ _)
  · intro s i e hi he hhas
    have hh : e ∈ (instAt s i).entities := by
      simpa [ArrayList.has] using hhas
    simp only [ArrayList.remove, entityAt, updateEntity, instAt,
      List.getD_eq_getElem?_getD] at hh ⊢
    simp [hh]
    rw [listGetD_set_self _ _ _ _ (by simpa using he)]
    simp [Entity.unlinkFrom]

/-- Witness for C10 on the concrete fixture: a `Players`-class collection
registered as `game.Players`. -/
theorem insert_links_constructor_name_witness :
    ("Players" : String) ∈ (entityAt (ArrayList.insert c10State 0 0).2 0).__collections
    ∧ (∃ s', CollectionManager.addEntityTo c10State 0 "game.Players" = .ok s'
        ∧ "game.Players" ∈ (entityAt s' 0).__collections
        ∧ "Players" ∈ (entityAt s' 0).__collections)
    ∧ (entityAt (ArrayList.remove c10State2 0 0).2 0).__collections =
        (entityAt c10State2 0).__collections.filter (fun x => x ≠ "Players") := by
  refine ⟨?_, ?_, ?_⟩
  · have h := insert_links_constructor_name.1 c10State 0 0
      (by decide) (by decide) (by decide)
    simpa using h
  · have h := insert_links_constructor_name.2.1 c10State 0 "game.Players" 0 c10State
      rfl (by decide) (by decide) (by decide)
    simpa using h
  · have h := insert_links_constructor_name.2.2 c10State2 0 0
      (by decide) (by decide) (by decide)
    simpa using h

/-- C6 counterexample: `create("T", { max_hp: 2, hp: 7 })` on a prototype with
attributes `max_hp = 1`, `hp = 5` leaves `max_hp` at its default 1 — the
parameter is ignored because the key contains an underscore, although the
underscore is not leading — while `hp` (no underscore) is overwritten.  This
refutes the claim that a key such as `max_hp` existing on the entity is
overwritten. -/
theorem create_skips_underscore_params :
    ((EntityFactory.create c6State "T" [("max_hp", .num 2), ("hp", .num 7)]).map
        (fun rs => (lookupA (entityAt rs.2 rs.1).attrs "max_hp",
                    lookupA (entityAt rs.2 rs.1).attrs "hp")))
      = .ok (some (.num 1), some (.num 7))
    ∧ Val.num 1 ≠ Val.num 2 := by
  constructor
  · rfl
  · simp

theorem setKey_present_isSome {α : Type} (m : List (String × α)) (k₀ k : String)
    (v₀ : α) (h : (lookupA m k₀).isSome = true) :
    (lookupA (setKey m k₀ v₀) k).isSome = (lookupA m k).isSome := by
  by_cases hk : k = k₀
  · subst hk
    simp [lookupA_setKey_self, h]
  · simp [lookupA_setKey_ne _ _ _ _ hk]

theorem applyParams_not_mem (ps : List (String × Val)) (ent : Entity) (k : String)
    (h : k ∉ ps.map Prod.fst) :
    lookupA (EntityFactory.applyParams ent ps).attrs k = lookupA ent.attrs k := by
  induction ps generalizing ent with
  | nil => rfl
  | cons kv rest ih =>
      have hk : k ≠ kv.1 := by
        intro he
        exact h (by simp [he])
      have hrest : k ∉ rest.map Prod.fst := by
        intro hm
        exact h (by simp [hm])
      cases kv with
      | mk k₀ v₀ =>
        by_cases hc : ((lookupA ent.attrs k₀).isSome && !(jsIncludes '_' k₀)) = true
        · simp only [EntityFactory.applyParams, hc, if_pos]
          rw [ih _ hrest]
          exact lookupA_setKey_ne _ _ _ _ hk
        · simp only [EntityFactory.applyParams, hc, if_neg, Bool.false_eq_true,
            ite_false]
          exact ih _ hrest

/-- C6 (corrected): in the parameter-application loop of `create`, a
parameter key overwrites the entity's attribute (with the caller's value used
as-is) exactly when the key is already present on the entity and contains no
underscore anywhere — the source tests `param.includes("_")`, not a
leading-underscore convention, so a key such as `max_hp` is never
overwritten. -/
theorem applyParams_overwrites_iff (ps : List (String × Val)) (ent : Entity)
    (k : String) (v : Val) (hnd : (ps.map Prod.fst).Nodup) (hmem : (k, v) ∈ ps) :
    lookupA (EntityFactory.applyParams ent ps).attrs k =
      if ((lookupA ent.attrs k).isSome && !(jsIncludes '_' k)) = true then some v
      else lookupA ent.attrs k := by
  induction ps generalizing ent with
  | nil => cases hmem
  | cons kv rest ih =>
      cases kv with
      | mk k₀ v₀ =>
        have hnd' : k₀ ∉ rest.map Prod.fst ∧ (rest.map Prod.fst).Nodup := by
          simpa [List.nodup_cons] using hnd
        rcases List.mem_cons.mp hmem with hmem | hmem
        · rw [Prod.mk.injEq] at hmem
          obtain ⟨hk, hv⟩ := hmem
          subst hk
          subst hv
          by_cases hc : ((lookupA ent.attrs k).isSome && !(jsIncludes '_' k)) = true
          · simp only [EntityFactory.applyParams, hc, if_pos]
            rw [applyParams_not_mem _ _ _ hnd'.1, lookupA_setKey_self]
          · simp only [EntityFactory.applyParams, hc, if_neg, Bool.false_eq_true,
              ite_false]
            rw [applyParams_not_mem _ _ _ hnd'.1]
        · have hk : k ≠ k₀ := by
            intro he
            apply hnd'.1
            rw [← he]
            exact List.mem_map_of_mem Prod.fst hmem
          by_cases hc : ((lookupA ent.attrs k₀).isSome && !(jsIncludes '_' k₀)) = true
          · simp only [EntityFactory.applyParams, hc, if_pos]
            rw [ih _ hnd'.2 hmem, lookupA_setKey_ne _ _ _ _ hk]
          · simp only [EntityFactory.applyParams, hc, if_neg, Bool.false_eq_true,
              ite_false]
            exact ih _ hnd'.2 hmem

/-- Witness for C6 on the concrete fixture: `hp` (present, no underscore) is
overwritten, `max_hp` (present, inner underscore) is not. -/
theorem applyParams_overwrites_iff_witness :
    lookupA (EntityFactory.applyParams
        ⟨"0", "T", [("max_hp", .num 1), ("hp", .num 5)], [], []⟩
        [("max_hp", .num 2), ("hp", .num 7)]).attrs "hp"
      = (if ((lookupA ([("max_hp", Val.num 1), ("hp", Val.num 5)]) "hp").isSome
            && !(jsIncludes '_' "hp")) = true then some (Val.num 7)
         else lookupA ([("max_hp", Val.num 1), ("hp", Val.num 5)]) "hp")
    ∧ lookupA (EntityFactory.applyParams
        ⟨"0", "T", [("max_hp", .num 1), ("hp", .num 5)], [], []⟩
        [("max_hp", .num 2), ("hp", .num 7)]).attrs "max_hp"
      = (if ((lookupA ([("max_hp", Val.num 1), ("hp", Val.num 5)]) "max_hp").isSome
            && !(jsIncludes '_' "max_hp")) = true then some (Val.num 2)
         else lookupA ([("max_hp", Val.num 1), ("hp", Val.num 5)]) "max_hp") :=
  ⟨applyParams_overwrites_iff _ _ "hp" (.num 7) (by decide)
      (List.mem_cons_of_mem _ (List.mem_cons_self _ _)),
   applyParams_overwrites_iff _ _ "max_hp" (.num 2) (by decide)
      (List.mem_cons_self _ _)⟩

/-- C7 (confirmed): one call to `updateCollection(newInst)` rebinds the proxy
to `newInst` and invokes its update callback exactly once, and afterwards —
in any state where the proxy record is unchanged, including states obtained
by further mutating `newInst` — every read accessor (`has`, `size`, `get`,
`filter`, `asArray`, iteration, `changed`) returns exactly what the same
accessor returns on `newInst` directly: reads delegate to the bound instance
and never go stale. -/
theorem updateCollection_rebinds (s : KxState) (pref newInst : Nat)
    (hp : pref < s.proxies.length) :
    (CollectionProxy.proxyAt (CollectionProxy.updateCollection s pref newInst) pref)._collection
        = newInst
    ∧ (CollectionProxy.proxyAt (CollectionProxy.updateCollection s pref newInst) pref).callbackCount
        = (CollectionProxy.proxyAt s pref).callbackCount + 1
    ∧ ∀ t : KxState,
        CollectionProxy.proxyAt t pref
          = CollectionProxy.proxyAt (CollectionProxy.updateCollection s pref newInst) pref →
        (∀ e, CollectionProxy.has t pref e = ArrayList.has t newInst e)
        ∧ CollectionProxy.size t pref = ArrayList.size t newInst
        ∧ (∀ idx, CollectionProxy.get t pref idx = ArrayList.get t newInst idx)
        ∧ (∀ f, CollectionProxy.filter t pref f = ArrayList.filter t newInst f)
        ∧ CollectionProxy.asArray t pref = ArrayList.asArray t newInst
        ∧ CollectionProxy.iter t pref = ArrayList.iter t newInst
        ∧ CollectionProxy.changed t pref = ArrayList.changed t newInst := by
  have hP : CollectionProxy.proxyAt (CollectionProxy.updateCollection s pref newInst) pref
      = { CollectionProxy.updateInternalState s
            { CollectionProxy.proxyAt s pref with _collection := newInst } with
          callbackCount := (CollectionProxy.updateInternalState s
            { CollectionProxy.proxyAt s pref with _collection := newInst }).callbackCount + 1 } := by
    simp only [CollectionProxy.updateCollection, CollectionProxy.proxyAt,
      List.getD_eq_getElem?_getD]
    rw [listGetD_set_self _ _ _ _ hp]
  refine ⟨?_, ?_, ?_⟩
  · rw [hP]
    rfl
  · rw [hP]
    rfl
  · intro t ht
    have hcol : (CollectionProxy.proxyAt t pref)._collection = newInst := by
      rw [ht, hP]
      rfl
    exact ⟨fun e => by rw [CollectionProxy.has, hcol],
      by rw [CollectionProxy.size, hcol],
      fun idx => by rw [CollectionProxy.get, hcol],
      fun f => by rw [CollectionProxy.filter, hcol],
      by rw [CollectionProxy.asArray, hcol],
      by rw [CollectionProxy.iter, hcol],
      by rw [CollectionProxy.changed, CollectionProxy.updateInternalState, hcol]; rfl⟩

/-- Witness for C7 on the concrete fixture, reading through a mutation of the
newly bound instance made after the rebinding. -/
theorem updateCollection_rebinds_witness :
    (CollectionProxy.proxyAt c7After 0)._collection = 1
    ∧ (CollectionProxy.proxyAt c7After 0).callbackCount
        = (CollectionProxy.proxyAt c7State 0).callbackCount + 1
    ∧ CollectionProxy.has c7Mut 0 0 = ArrayList.has c7Mut 1 0
    ∧ CollectionProxy.changed c7Mut 0 = ArrayList.changed c7Mut 1
    ∧ ArrayList.has c7Mut 1 0 = true := by
  have h := updateCollection_rebinds c7State 0 1 (by decide)
  exact ⟨h.1, h.2.1, (h.2.2 c7Mut rfl).1 0, (h.2.2 c7Mut rfl).2.2.2.2.2.2, rfl⟩

theorem GetFrame_refl (s : KxState) : GetFrame s s :=
  ⟨rfl, rfl, rfl, rfl, rfl, rfl, rfl, rfl, rfl, rfl⟩

theorem ensureCollectionInScene_frame (s : KxState) (n c : String) :
    GetFrame s (CollectionManager.ensureCollectionInScene s n c).2 := by
  cases hl : lookupA ((CollectionManager.sceneMapOf s s.activeScene).getD []) n with
  | none => simp [CollectionManager.ensureCollectionInScene, GetFrame, hl]
  | some c0 => simp [CollectionManager.ensureCollectionInScene, GetFrame, hl]

/-- Every run of `CollectionManager.get` either fails, returns an existing
instance with the state untouched, or lazily instantiates a resolved template
through `ensureCollectionInScene`. -/
theorem get_cases (s : KxState) (n : String) :
    (∃ err, CollectionManager.get s n = .error err)
    ∨ (∃ c, CollectionManager.get s n = .ok (c, s))
    ∨ (∃ ctor, CollectionManager.get s n
        = .ok (CollectionManager.ensureCollectionInScene s n ctor)) := by
  cases hm : CollectionManager.sceneMapOf s s.activeScene with
  | some m =>
    cases hc : lookupA m n with
    | some c =>
      right; left
      exact ⟨c, by simp [CollectionManager.get, bind, Except.bind, pure, Except.pure, hm, hc]⟩
    | none =>
      cases hr : CollectionManager.resolveImplicitNamespace s n s.activeScene with
      | error e =>
        left
        exact ⟨e, by simp [CollectionManager.get, bind, Except.bind, pure, Except.pure, hm, hc, hr]⟩
      | ok found =>
        cases found with
        | some c =>
          right; left
          exact ⟨c, by simp [CollectionManager.get, bind, Except.bind, pure, Except.pure, hm, hc, hr]⟩
        | none =>
          cases ht : lookupA s.collectionTemplates n with
          | some t =>
            right; right
            exact ⟨t, by simp [CollectionManager.get, bind, Except.bind, pure, Except.pure, hm, hc, hr, ht]⟩
          | none =>
            cases htr : CollectionManager.resolveTemplateNamespace s n with
            | error e =>
              left
              exact ⟨e, by simp [CollectionManager.get, bind, Except.bind, pure, Except.pure, hm, hc, hr, ht, htr]⟩
            | ok tfound =>
              cases tfound with
              | some ctor =>
                right; right
                exact ⟨ctor, by simp [CollectionManager.get, bind, Except.bind, pure, Except.pure, hm, hc, hr, ht, htr]⟩
              | none =>
                left
                refine ⟨"Collection '" ++ n ++ "' is not registered.", ?_⟩
                simp [CollectionManager.get, bind, Except.bind, pure, Except.pure, hm, hc, hr, ht, htr]
  | none =>
    cases ht : lookupA s.collectionTemplates n with
    | some t =>
      right; right
      exact ⟨t, by simp [CollectionManager.get, bind, Except.bind, pure, Except.pure, hm, ht]⟩
    | none =>
      cases htr : CollectionManager.resolveTemplateNamespace s n with
      | error e =>
        left
        exact ⟨e, by simp [CollectionManager.get, bind, Except.bind, pure, Except.pure, hm, ht, htr]⟩
      | ok tfound =>
        cases tfound with
        | some ctor =>
          right; right
          exact ⟨ctor, by simp [CollectionManager.get, bind, Except.bind, pure, Except.pure, hm, ht, htr]⟩
        | none =>
          left
          refine ⟨"Collection '" ++ n ++ "' is not registered.", ?_⟩
          simp [CollectionManager.get, bind, Except.bind, pure, Except.pure, hm, ht, htr]

theorem get_frame (s : KxState) (n : String) (i : Nat) (s' : KxState)
    (h : CollectionManager.get s n = .ok (i, s')) : GetFrame s s' := by
  rcases get_cases s n with ⟨err, he⟩ | ⟨c, hc⟩ | ⟨ctor, hctor⟩
  · rw [he] at h
    cases h
  · rw [hc] at h
    cases h
    exact GetFrame_refl s
  · rw [hctor] at h
    have h2 := Except.ok.inj h
    have hs : s' = (CollectionManager.ensureCollectionInScene s n ctor).2 :=
      (congrArg Prod.snd h2).symm
    rw [hs]
    exact ensureCollectionInScene_frame s n ctor

theorem mem_keys_setKey {α : Type} (m : List (String × α)) (k x : String) (v : α) :
    x ∈ (setKey m k v).map Prod.fst ↔ x ∈ m.map Prod.fst ∨ x = k := by
  induction m with
  | nil => simp [setKey]
  | cons kv rest ih =>
      by_cases hk : kv.1 = k
      · subst hk
        simp [setKey]
        tauto
      · simp [setKey, hk, ih]
        tauto

theorem setKey_keys_nodup {α : Type} (m : List (String × α)) (k : String) (v : α)
    (h : (m.map Prod.fst).Nodup) : ((setKey m k v).map Prod.fst).Nodup := by
  induction m with
  | nil => simp [setKey]
  | cons kv rest ih =>
      cases kv with
      | mk k₀ v₀ =>
        simp only [List.map_cons, List.nodup_cons] at h
        by_cases hk : k₀ = k
        · subst hk
          simp only [setKey, ite_true, List.map_cons, List.nodup_cons]
          exact h
        · simp only [setKey, hk, ite_false, List.map_cons, List.nodup_cons]
          refine ⟨?_, ih h.2⟩
          rw [mem_keys_setKey]
          rintro (hm | hm)
          · exact h.1 hm
          · exact hk hm

/-- C8 (confirmed, modelled from the spec — the smart-wrapper registry is
absent from the sources): `getSmartWrapper` hands out one shared proxy per
collection name: a repeated request returns the very same proxy reference and
state; on a first request the proxy is created seeded with what `get(name)`
returns, bound to the name, and registered under it; and the registry keyed
by name stays duplicate-free, so at most one proxy exists per name. -/
theorem getSmartWrapper_identity (s : KxState) (name : String) :
    (∀ p s₁, CollectionManager.getSmartWrapper s name = .ok (p, s₁) →
      CollectionManager.getSmartWrapper s₁ name = .ok (p, s₁))
    ∧ (lookupA s.wrappers name = none →
      ∀ i s', CollectionManager.get s name = .ok (i, s') →
        ∃ p s₁, CollectionManager.getSmartWrapper s name = .ok (p, s₁)
          ∧ (CollectionProxy.proxyAt s₁ p).collectionName = name
          ∧ (CollectionProxy.proxyAt s₁ p)._collection = i
          ∧ lookupA s₁.wrappers name = some p)
    ∧ ((s.wrappers.map Prod.fst).Nodup →
      ∀ p s₁, CollectionManager.getSmartWrapper s name = .ok (p, s₁) →
        (s₁.wrappers.map Prod.fst).Nodup) := by
  refine ⟨?_, ?_, ?_⟩
  · intro p s₁ h
    cases hw : lookupA s.wrappers name with
    | some pref =>
        simp only [CollectionManager.getSmartWrapper, hw] at h
        cases h
        simp only [CollectionManager.getSmartWrapper, hw]
    | none =>
        simp only [CollectionManager.getSmartWrapper, hw, bind, Except.bind] at h
        cases hg : CollectionManager.get s name with
        | error e =>
            rw [hg] at h
            cases h
        | ok isp =>
            rw [hg] at h
            cases h
            simp only [CollectionManager.getSmartWrapper, lookupA_setKey_self]
  · intro hw i s' hg
    refine ⟨s'.proxies.length,
      { s' with
          proxies := s'.proxies ++ [CollectionProxy.make s' name i]
          wrappers := setKey s'.wrappers name s'.proxies.length },
      ?_, ?_, ?_, ?_⟩
    · simp only [CollectionManager.getSmartWrapper, hw, bind, Except.bind, hg]
    · simp only [CollectionProxy.proxyAt, List.getD_eq_getElem?_getD,
        listGetD_append_self, CollectionProxy.make, CollectionProxy.updateInternalState]
    · simp only [CollectionProxy.proxyAt, List.getD_eq_getElem?_getD,
        listGetD_append_self, CollectionProxy.make, CollectionProxy.updateInternalState]
    · exact lookupA_setKey_self _ _ _
  · intro hnd p s₁ h
    cases hw : lookupA s.wrappers name with
    | some pref =>
        simp only [CollectionManager.getSmartWrapper, hw] at h
        cases h
        exact hnd
    | none =>
        simp only [CollectionManager.getSmartWrapper, hw, bind, Except.bind] at h
        cases hg : CollectionManager.get s name with
        | error e =>
            rw [hg] at h
            cases h
        | ok isp =>
            rw [hg] at h
            cases h
            have hwr : isp.2.wrappers = s.wrappers :=
              (get_frame s name isp.1 isp.2 (by rw [hg])).2.2.2.2.2.1
            simpa [hwr] using setKey_keys_nodup s.wrappers name isp.2.proxies.length hnd

/-- Witness for C8 on the concrete fixture: the second request returns the
same proxy and state, the first request seeded and registered it, and the
registry keys stay duplicate-free. -/
theorem getSmartWrapper_identity_witness :
    CollectionManager.getSmartWrapper c8S1 "game.Players" = .ok (0, c8S1)
    ∧ (∃ p s₁, CollectionManager.getSmartWrapper c10State "game.Players" = .ok (p, s₁)
        ∧ (CollectionProxy.proxyAt s₁ p).collectionName = "game.Players"
        ∧ (CollectionProxy.proxyAt s₁ p)._collection = 0
        ∧ lookupA s₁.wrappers "game.Players" = some p)
    ∧ (c8S1.wrappers.map Prod.fst).Nodup :=
  ⟨(getSmartWrapper_identity c10State "game.Players").1 0 c8S1 rfl,
   (getSmartWrapper_identity c10State "game.Players").2.1 rfl 0 c10State rfl,
   (getSmartWrapper_identity c10State "game.Players").2.2 (by decide) 0 c8S1 rfl⟩

theorem ef_go_ambiguous (s : KxState) (R : String) :
    ∀ (l : List String) (acc : Option PrototypeSchema),
      ((acc.isSome = true
          ∧ 1 ≤ (l.filter (fun ns => (lookupA s.types (ns ++ "." ++ R)).isSome)).length)
        ∨ 2 ≤ (l.filter (fun ns => (lookupA s.types (ns ++ "." ++ R)).isSome)).length) →
      EntityFactory.resolveImplicitNamespace.go s R l acc
        = .error ("Ambiguous entity type '" ++ R ++
            "' was requested: a namespace must be specified before it ( Ex. namespace.type ).") := by
  intro l
  induction l with
  | nil =>
      intro acc h
      simp only [List.filter_nil, List.length_nil] at h
      rcases h with ⟨_, h⟩ | h <;> omega
  | cons ns rest ih =>
      intro acc h
      by_cases hns : (lookupA s.types (ns ++ "." ++ R)).isSome = true
      · obtain ⟨r, hr⟩ := Option.isSome_iff_exists.mp hns
        cases acc with
        | some a => simp [EntityFactory.resolveImplicitNamespace.go, hr]
        | none =>
            simp only [EntityFactory.resolveImplicitNamespace.go, hr]
            apply ih
            left
            refine ⟨rfl, ?_⟩
            rcases h with ⟨hfalse, _⟩ | h
        
            · cases hfalse
            · simp only [List.filter_cons, hns, if_pos, List.length_cons] at h
              omega
      · have hnone : lookupA s.types (ns ++ "." ++ R) = none :=
          Option.not_isSome_iff_eq_none.mp (by simpa using hns)
        simp only [EntityFactory.resolveImplicitNamespace.go, hnone]
        apply ih
        simpa [List.filter_cons, hns] using h

theorem cm_go_ambiguous (m : List (String × Nat)) (R : String) :
    ∀ (l : List String) (acc : Option Nat),
      ((acc.isSome = true
          ∧ 1 ≤ (l.filter (fun ns => (lookupA m (ns ++ "." ++ R)).isSome)).length)
        ∨ 2 ≤ (l.filter (fun ns => (lookupA m (ns ++ "." ++ R)).isSome)).length) →
      CollectionManager.resolveImplicitNamespace.go R m l acc
        = .error ("Ambiguous collection '" ++ R ++
            "' was requested: a namespace must be specified before it ( Ex. namespace.collectionName ).") := by
  intro l
  induction l with
  | nil =>
      intro acc h
      simp only [List.filter_nil, List.length_nil] at h
      rcases h with ⟨_, h⟩ | h <;> omega
  | cons ns rest ih =>
      intro acc h
      by_cases hns : (lookupA m (ns ++ "." ++ R)).isSome = true
      · obtain ⟨r, hr⟩ := Option.isSome_iff_exists.mp hns
        cases acc with
        | some a => simp [CollectionManager.resolveImplicitNamespace.go, hr]
        | none =>
            simp only [CollectionManager.resolveImplicitNamespace.go, hr]
            apply ih
            left
            refine ⟨rfl, ?_⟩
            rcases h with ⟨hfalse, _⟩ | h
            · cases hfalse
            · simp only [List.filter_cons, hns, if_pos, List.length_cons] at h
              omega
      · have hnone : lookupA m (ns ++ "." ++ R) = none :=
          Option.not_isSome_iff_eq_none.mp (by simpa using hns)
        simp only [CollectionManager.resolveImplicitNamespace.go, hnone]
        apply ih
        simpa [List.filter_cons, hns] using h

theorem tmpl_go_ambiguous (s : KxState) (R : String) :
    ∀ (l : List String) (acc : Option String),
      ((acc.isSome = true
          ∧ 1 ≤ (l.filter (fun ns => (lookupA s.collectionTemplates (ns ++ "." ++ R)).isSome)).length)
        ∨ 2 ≤ (l.filter (fun ns => (lookupA s.collectionTemplates (ns ++ "." ++ R)).isSome)).length) →
      CollectionManager.resolveTemplateNamespace.go s R l acc
        = .error ("Ambiguous collection template '" ++ R ++
            "' was requested: a namespace must be specified before it ( Ex. namespace.collectionName ).") := by
  intro l
  induction l with
  | nil =>
      intro acc h
      simp only [List.filter_nil, List.length_nil] at h
      rcases h with ⟨_, h⟩ | h <;> omega
  | cons ns rest ih =>
      intro acc h
      by_cases hns : (lookupA s.collectionTemplates (ns ++ "." ++ R)).isSome = true
      · obtain ⟨r, hr⟩ := Option.isSome_iff_exists.mp hns
        cases acc with
        | some a => simp [CollectionManager.resolveTemplateNamespace.go, hr]
        | none =>
            simp only [CollectionManager.resolveTemplateNamespace.go, hr]
            apply ih
            left
            refine ⟨rfl, ?_⟩
            rcases h with ⟨hfalse, _⟩ | h
            · cases hfalse
            · simp only [List.filter_cons, hns, if_pos, List.length_cons] at h
              omega
      · have hnone : lookupA s.collectionTemplates (ns ++ "." ++ R) = none :=
          Option.not_isSome_iff_eq_none.mp (by simpa using hns)
        simp only [CollectionManager.resolveTemplateNamespace.go, hnone]
        apply ih
        simpa [List.filter_cons, hns] using h

/-- C5 (confirmed): whenever more than one active namespace resolves a bare
name, each of the three resolvers — the EntityFactory's prototype resolution
and the CollectionManager's instance and template resolution — fails
immediately with the ambiguity error that names the bare name and instructs
qualification, returning no guess; a fully qualified name is always served by
direct lookup, bypassing the namespace scan entirely. -/
theorem namespace_ambiguity (s : KxState) (R q : String) :
    (2 ≤ (s.namespaces.filter
        (fun ns => (lookupA s.types (ns ++ "." ++ R)).isSome)).length →
      EntityFactory.resolveImplicitNamespace s R
        = .error ("Ambiguous entity type '" ++ R ++
            "' was requested: a namespace must be specified before it ( Ex. namespace.type )."))
    ∧ (∀ p, lookupA s.types q = some p →
        EntityFactory.resolveType s q = .ok (some p))
    ∧ (∀ m, CollectionManager.sceneMapOf s s.activeScene = some m →
        2 ≤ (s.namespaces.filter (fun ns => (lookupA m (ns ++ "." ++ R)).isSome)).length →
        CollectionManager.resolveImplicitNamespace s R s.activeScene
          = .error ("Ambiguous collection '" ++ R ++
              "' was requested: a namespace must be specified before it ( Ex. namespace.collectionName )."))
    ∧ (2 ≤ (s.namespaces.filter
        (fun ns => (lookupA s.collectionTemplates (ns ++ "." ++ R)).isSome)).length →
      CollectionManager.resolveTemplateNamespace s R
        = .error ("Ambiguous collection template '" ++ R ++
            "' was requested: a namespace must be specified before it ( Ex. namespace.collectionName )."))
    ∧ (∀ m c, CollectionManager.sceneMapOf s s.activeScene = some m →
        lookupA m q = some c →
        CollectionManager.get s q = .ok (c, s)) := by
  refine ⟨?_, ?_, ?_, ?_, ?_⟩
  · intro h
    exact ef_go_ambiguous s R s.namespaces none (Or.inr h)
  · intro p hp
    simp [EntityFactory.resolveType, hp]
  · intro m hm h
    unfold CollectionManager.resolveImplicitNamespace
    rw [hm]
    exact cm_go_ambiguous m R s.namespaces none (Or.inr h)
  · intro h
    exact tmpl_go_ambiguous s R s.namespaces none (Or.inr h)
  · intro m c hm hq
    simp [CollectionManager.get, bind, Except.bind, pure, Except.pure, hm, hq]

/-- Witness for C5 on the two-addon fixture: bare `Foo` and `Col` are
ambiguous in every resolver; qualified `a.Foo` and `a.Col` resolve directly. -/
theorem namespace_ambiguity_witness :
    EntityFactory.resolveImplicitNamespace c5State "Foo"
      = .error ("Ambiguous entity type '" ++ "Foo" ++
          "' was requested: a namespace must be specified before it ( Ex. namespace.type ).")
    ∧ EntityFactory.resolveType c5State "a.Foo" = .ok (some (.mk "Foo" [] [] []))
    ∧ CollectionManager.resolveImplicitNamespace c5State "Col" c5State.activeScene
      = .error ("Ambiguous collection '" ++ "Col" ++
          "' was requested: a namespace must be specified before it ( Ex. namespace.collectionName ).")
    ∧ CollectionManager.resolveTemplateNamespace c5State "Col"
      = .error ("Ambiguous collection template '" ++ "Col" ++
          "' was requested: a namespace must be specified before it ( Ex. namespace.collectionName ).")
    ∧ CollectionManager.get c5State "a.Col" = .ok (0, c5State) :=
  ⟨(namespace_ambiguity c5State "Foo" "a.Foo").1 (by decide),
   (namespace_ambiguity c5State "Foo" "a.Foo").2.1 (.mk "Foo" [] [] []) rfl,
   (namespace_ambiguity c5State "Col" "a.Col").2.2.1 [("a.Col", 0), ("b.Col", 1)]
      rfl (by decide),
   (namespace_ambiguity c5State "Col" "a.Col").2.2.2.1 (by decide),
   (namespace_ambiguity c5State "Col" "a.Col").2.2.2.2 [("a.Col", 0), ("b.Col", 1)]
      0 rfl rfl⟩

theorem ESF_refl (s : KxState) : EntityShapeFrame s s :=
  ⟨rfl, fun _ => rfl, fun _ => rfl, rfl, rfl⟩

theorem ESF_trans {s₁ s₂ s₃ : KxState}
    (h₁ : EntityShapeFrame s₁ s₂) (h₂ : EntityShapeFrame s₂ s₃) :
    EntityShapeFrame s₁ s₃ :=
  ⟨h₂.1.trans h₁.1,
   fun x => (h₂.2.1 x).trans (h₁.2.1 x),
   fun x => (h₂.2.2.1 x).trans (h₁.2.2.1 x),
   h₂.2.2.2.1.trans h₁.2.2.2.1,
   h₂.2.2.2.2.trans h₁.2.2.2.2⟩

theorem linkTo_id (ent : Entity) (c : String) : (ent.linkTo c).id = ent.id := by
  unfold Entity.linkTo
  split <;> rfl

theorem linkTo_type (ent : Entity) (c : String) : (ent.linkTo c).type = ent.type := by
  unfold Entity.linkTo
  split <;> rfl

theorem updateEntity_esf (s : KxState) (e : Nat) (f : Entity → Entity)
    (hid : ∀ ent, (f ent).id = ent.id) (hty : ∀ ent, (f ent).type = ent.type) :
    EntityShapeFrame s (updateEntity s e f) := by
  refine ⟨by simp [updateEntity], ?_, ?_, rfl, rfl⟩ <;> intro x <;>
    by_cases hx : x = e
  · subst hx
    by_cases he : x < s.heap.length
    · simp only [updateEntity, entityAt, List.getD_eq_getElem?_getD,
        listGetD_set_self _ _ _ _ he]
      exact hid _
    · have hset : s.heap.set x (f (s.heap.getD x default)) = s.heap :=
        List.set_eq_of_length_le (by omega)
      simp only [updateEntity, entityAt, hset]
  · simp only [updateEntity, entityAt, List.getD_eq_getElem?_getD,
      listGetD_set_ne _ _ _ _ _ (fun he => hx he.symm)]
  · subst hx
    by_cases he : x < s.heap.length
    · simp only [updateEntity, entityAt, List.getD_eq_getElem?_getD,
        listGetD_set_self _ _ _ _ he]
      exact hty _
    · have hset : s.heap.set x (f (s.heap.getD x default)) = s.heap :=
        List.set_eq_of_length_le (by omega)
      simp only [updateEntity, entityAt, hset]
  · simp only [updateEntity, entityAt, List.getD_eq_getElem?_getD,
      listGetD_set_ne _ _ _ _ _ (fun he => hx he.symm)]

theorem insts_update_esf (s : KxState) (l : List ArrayList) :
    EntityShapeFrame s { s with insts := l } :=
  ⟨rfl, fun _ => rfl, fun _ => rfl, rfl, rfl⟩

theorem insert_esf (s : KxState) (i e : Nat) :
    EntityShapeFrame s (ArrayList.insert s i e).2 := by
  unfold ArrayList.insert
  dsimp only
  by_cases hc : (instAt s i).entities.contains e = true
  · rw [if_pos hc]
    exact ESF_refl s
  · rw [if_neg hc]
    exact ESF_trans (insts_update_esf s _)
      (updateEntity_esf _ e (fun ent => ent.linkTo (instAt s i).className)
        (fun ent => linkTo_id ent _) (fun ent => linkTo_type ent _))

theorem remove_esf (s : KxState) (i e : Nat) :
    EntityShapeFrame s (ArrayList.remove s i e).2 := by
  unfold ArrayList.remove
  dsimp only
  by_cases hc : (instAt s i).entities.contains e = true
  · rw [if_pos hc]
    exact ESF_trans (insts_update_esf s _)
      (updateEntity_esf _ e (fun ent => ent.unlinkFrom (instAt s i).className)
        (fun ent => rfl) (fun ent => rfl))
  · rw [if_neg hc]
    exact ESF_refl s

theorem getFrame_esf {s s' : KxState} (h : GetFrame s s') : EntityShapeFrame s s' :=
  ⟨by rw [h.1], fun x => by unfold entityAt; rw [h.1], fun x => by unfold entityAt; rw [h.1],
   h.2.1, h.2.2.1⟩

theorem addEntityTo_esf (s : KxState) (e : Nat) (n : String) (s' : KxState)
    (h : CollectionManager.addEntityTo s e n = .ok s') : EntityShapeFrame s s' := by
  unfold CollectionManager.addEntityTo at h
  simp only [bind, Except.bind] at h
  cases hg : CollectionManager.get s n with
  | error err =>
      rw [hg] at h
      cases h
  | ok cs =>
      rw [hg] at h
      cases h
      refine ESF_trans (getFrame_esf (get_frame s n cs.1 cs.2 (by rw [hg]))) ?_
      exact ESF_trans (insert_esf cs.2 cs.1 e)
        (updateEntity_esf _ e (fun ent => ent.linkTo n)
          (fun ent => linkTo_id ent _) (fun ent => linkTo_type ent _))

theorem removeEntityFrom_esf (s : KxState) (e : Nat) (n : String) (s' : KxState)
    (h : CollectionManager.removeEntityFrom s e n = .ok s') : EntityShapeFrame s s' := by
  unfold CollectionManager.removeEntityFrom at h
  simp only [bind, Except.bind] at h
  cases hg : CollectionManager.get s n with
  | error err =>
      rw [hg] at h
      cases h
  | ok cs =>
      rw [hg] at h
      cases h
      refine ESF_trans (getFrame_esf (get_frame s n cs.1 cs.2 (by rw [hg]))) ?_
      exact ESF_trans (remove_esf cs.2 cs.1 e)
        (updateEntity_esf _ e (fun ent => ent.unlinkFrom n)
          (fun ent => rfl) (fun ent => rfl))

theorem joinCollections_esf (ctx : Option String) (e : Nat) :
    ∀ (cs : List String) (s s' : KxState),
      EntityFactory.joinCollections ctx e s cs = .ok s' → EntityShapeFrame s s' := by
  intro cs
  induction cs with
  | nil =>
      intro s s' h
      cases h
      exact ESF_refl _
  | cons c rest ih =>
      intro s s' h
      simp only [EntityFactory.joinCollections, bind, Except.bind] at h
      generalize hq : (match ctx with | some ctxv => ctxv ++ "." ++ c | none => c) = q at h
      cases ha : CollectionManager.addEntityTo s e q with
      | error err =>
          rw [ha] at h
          cases h
      | ok s₁ =>
          rw [ha] at h
          refine ESF_trans (addEntityTo_esf _ _ _ _ ha) ?_
          refine ESF_trans (updateEntity_esf s₁ e (fun ent => ent.linkTo q)
            (fun ent => linkTo_id ent _) (fun ent => linkTo_type ent _)) ?_
          exact ih _ _ h

theorem leaveAll_esf (e : Nat) :
    ∀ (cs : List String) (s s' : KxState),
      EntityFactory.sendToRest.leaveAll e s cs = .ok s' → EntityShapeFrame s s' := by
  intro cs
  induction cs with
  | nil =>
      intro s s' h
      cases h
      exact ESF_refl _
  | cons c rest ih =>
      intro s s' h
      simp only [EntityFactory.sendToRest.leaveAll, bind, Except.bind] at h
      cases ha : CollectionManager.removeEntityFrom s e c with
      | error err =>
          rw [ha] at h
          cases h
      | ok s₁ =>
          rw [ha] at h
          refine ESF_trans (removeEntityFrom_esf _ _ _ _ ha) ?_
          refine ESF_trans (updateEntity_esf s₁ e (fun ent => ent.unlinkFrom c)
            (fun ent => rfl) (fun ent => rfl)) ?_
          exact ih _ _ h

/-- C1 (confirmed): with the pool for `T` holding exactly the retired entity
`eref` (the state `sendToRest` leaves — second conjunct), `create(T)` returns
that very heap reference — recycled by popping the per-type pool, with no new
heap record allocated — with its id unchanged, leaving the pool empty. -/
theorem create_recycles_pool :
    (∀ (s : KxState) (T : String) (eref : Nat) (proto : PrototypeSchema),
      lookupA s.types T = some proto →
      lookupA s.pools T = some [eref] →
      ∀ (r : Nat) (s' : KxState), EntityFactory.create s T [] = .ok (r, s') →
        r = eref ∧ s'.heap.length = s.heap.length
        ∧ (entityAt s' eref).id = (entityAt s eref).id
        ∧ lookupA s'.pools T = some [])
    ∧ (∀ (s₀ : KxState) (e : Nat) (s₁ : KxState),
        (lookupA s₀.pools (entityAt s₀ e).type = none
          ∨ lookupA s₀.pools (entityAt s₀ e).type = some []) →
        EntityFactory.sendToRest s₀ e = .ok s₁ →
        lookupA s₁.pools (entityAt s₀ e).type = some [e]) := by
  constructor
  · intro s T eref proto hT hpool r s' h
    simp only [EntityFactory.create, EntityFactory.resolveType, hT, hpool, bind,
      Except.bind, List.getLast?_singleton, List.dropLast_single] at h
    cases hj : EntityFactory.joinCollections (EntityFactory.contextOf T) eref
        (updateEntity
          (updateEntity { s with pools := setKey s.pools T [] } eref
            (fun ent => EntityFactory.resetEntityState s.ctors ent proto))
          eref (fun ent => EntityFactory.applyParams ent []))
        proto.collections with
    | error err =>
        rw [hj] at h
        cases h
    | ok s₃ =>
        rw [hj] at h
        cases h
        have hesf := joinCollections_esf (EntityFactory.contextOf T) eref
          proto.collections _ _ hj
        have hesf₂ := updateEntity_esf
          (updateEntity { s with pools := setKey s.pools T [] } eref
            (fun ent => EntityFactory.resetEntityState s.ctors ent proto))
          eref (fun ent => EntityFactory.applyParams ent [])
          (fun ent => rfl) (fun ent => rfl)
        have hesf₁ := updateEntity_esf { s with pools := setKey s.pools T [] } eref
          (fun ent => EntityFactory.resetEntityState s.ctors ent proto)
          (fun ent => rfl) (fun ent => rfl)
        have hall := ESF_trans (ESF_trans hesf₁ hesf₂) hesf
        refine ⟨rfl, hall.1, hall.2.1 eref, ?_⟩
        rw [hall.2.2.2.1]
        exact lookupA_setKey_self _ _ _
  · intro s₀ e s₁ hpool h
    simp only [EntityFactory.sendToRest, bind, Except.bind] at h
    cases hl : EntityFactory.sendToRest.leaveAll e s₀ (entityAt s₀ e).collections with
    | error err =>
        rw [hl] at h
        cases h
    | ok sL =>
        rw [hl] at h
        cases h
        have hp : sL.pools = s₀.pools := (leaveAll_esf e _ s₀ sL hl).2.2.2.1
        rcases hpool with hnone | hsome
        · simp only [hp, hnone, Option.getD_none, List.nil_append]
          exact lookupA_setKey_self _ _ _
        · simp only [hp, hsome, Option.getD_some, List.nil_append]
          exact lookupA_setKey_self _ _ _

/-- Witness for C1 on the concrete fixture: the recycled entity is heap
record 0 with its id intact and the pool drained, and `sendToRest` refills
the pool with exactly that entity. -/
theorem create_recycles_pool_witness :
    (0 = 0 ∧ c1After.heap.length = c1State.heap.length
      ∧ (entityAt c1After 0).id = (entityAt c1State 0).id
      ∧ lookupA c1After.pools "P" = some [])
    ∧ lookupA c1Send.pools (entityAt c1After 0).type = some [0] :=
  ⟨create_recycles_pool.1 c1State "P" 0 (.mk "P" [("hp", .num 5)] ["Players"] [])
      rfl rfl 0 c1After rfl,
   create_recycles_pool.2 c1After 0 c1Send (Or.inr rfl) rfl⟩

theorem mem_keys_deepAssignFields (env : CtorEnv) :
    ∀ (proto r : List (String × Val)) (k : String),
      k ∈ (deepAssignFields env r proto).map Prod.fst
        ↔ k ∈ r.map Prod.fst ∨ k ∈ proto.map Prod.fst := by
  intro proto
  induction proto with
  | nil => simp [deepAssignFields]
  | cons kv rest ih =>
      intro r k
      cases kv with
      | mk k₀ v₀ =>
        simp only [deepAssignFields]
        rw [ih, mem_keys_setKey]
        simp only [List.map_cons, List.mem_cons]
        tauto

theorem lookupA_deepAssignFields_not_mem (env : CtorEnv) :
    ∀ (proto r : List (String × Val)) (k : String), k ∉ proto.map Prod.fst →
      lookupA (deepAssignFields env r proto) k = lookupA r k := by
  intro proto
  induction proto with
  | nil => intro r k h; rfl
  | cons kv rest ih =>
      intro r k h
      cases kv with
      | mk k₀ v₀ =>
        have hk : k ≠ k₀ := by
          intro he
          exact h (by simp [he])
        have hrest : k ∉ rest.map Prod.fst := by
          intro hm
          exact h (by simp [hm])
        simp only [deepAssignFields]
        rw [ih _ _ hrest]
        exact lookupA_setKey_ne _ _ _ _ hk

theorem lookupA_deepAssignFields_mem (env : CtorEnv) :
    ∀ (proto r : List (String × Val)) (k : String) (v : Val),
      (proto.map Prod.fst).Nodup → (k, v) ∈ proto →
      lookupA (deepAssignFields env r proto) k = some (deepCopy env v) := by
  intro proto
  induction proto with
  | nil => intro r k v _ hmem; cases hmem
  | cons kv rest ih =>
      intro r k v hnd hmem
      cases kv with
      | mk k₀ v₀ =>
        have hnd' : k₀ ∉ rest.map Prod.fst ∧ (rest.map Prod.fst).Nodup := by
          simpa [List.nodup_cons] using hnd
        rcases List.mem_cons.mp hmem with hmem | hmem
        · rw [Prod.mk.injEq] at hmem
          obtain ⟨hk, hv⟩ := hmem
          subst hk
          subst hv
          simp only [deepAssignFields]
          rw [lookupA_deepAssignFields_not_mem env rest _ _ hnd'.1]
          exact lookupA_setKey_self _ _ _
        · have hk : k ≠ k₀ := by
            intro he
            apply hnd'.1
            rw [← he]
            exact List.mem_map_of_mem Prod.fst hmem
          simp only [deepAssignFields]
          exact ih _ _ _ hnd'.2 hmem

theorem updateEntity_links_mono (s : KxState) (e : Nat) (f : Entity → Entity)
    (hf : ∀ ent y, y ∈ ent.__collections → y ∈ (f ent).__collections) :
    ∀ (x : Nat) (y : String), y ∈ (entityAt s x).__collections →
      y ∈ (entityAt (updateEntity s e f) x).__collections := by
  intro x y hy
  simp only [entityAt, List.getD_eq_getElem?_getD] at hy ⊢
  by_cases hx : x = e
  · subst hx
    by_cases he : x < s.heap.length
    · simp only [updateEntity, List.getD_eq_getElem?_getD,
        listGetD_set_self _ _ _ _ he]
      exact hf _ _ hy
    · have hset : s.heap.set x (f (s.heap.getD x default)) = s.heap :=
        List.set_eq_of_length_le (by omega)
      simpa only [updateEntity, hset] using hy
  · simpa only [updateEntity, List.getD_eq_getElem?_getD,
      listGetD_set_ne _ _ _ _ _ (fun he => hx he.symm)] using hy

theorem insert_links_mono (s : KxState) (i e : Nat) :
    ∀ (x : Nat) (y : String), y ∈ (entityAt s x).__collections →
      y ∈ (entityAt (ArrayList.insert s i e).2 x).__collections := by
  intro x y hy
  unfold ArrayList.insert
  dsimp only
  by_cases hc : (instAt s i).entities.contains e = true
  · rw [if_pos hc]
    exact hy
  · rw [if_neg hc]
    exact updateEntity_links_mono _ e _ (fun ent z => linkTo_mono ent _ z) x y hy

theorem addEntityTo_links_mono (s : KxState) (e : Nat) (n : String) (s' : KxState)
    (h : CollectionManager.addEntityTo s e n = .ok s') :
    ∀ (x : Nat) (y : String), y ∈ (entityAt s x).__collections →
      y ∈ (entityAt s' x).__collections := by
  intro x y hy
  unfold CollectionManager.addEntityTo at h
  simp only [bind, Except.bind] at h
  cases hg : CollectionManager.get s n with
  | error err =>
      rw [hg] at h
      cases h
  | ok cs =>
      rw [hg] at h
      cases h
      have hheap : cs.2.heap = s.heap := (get_frame s n cs.1 cs.2 (by rw [hg])).1
      apply updateEntity_links_mono _ e _ (fun ent z => linkTo_mono ent _ z)
      apply insert_links_mono
      unfold entityAt
      rw [hheap]
      exact hy

theorem addEntityTo_self_mem (s : KxState) (e : Nat) (n : String) (s' : KxState)
    (h : CollectionManager.addEntityTo s e n = .ok s') (he : e < s.heap.length) :
    n ∈ (entityAt s' e).__collections := by
  unfold CollectionManager.addEntityTo at h
  simp only [bind, Except.bind] at h
  cases hg : CollectionManager.get s n with
  | error err =>
      rw [hg] at h
      cases h
  | ok cs =>
      rw [hg] at h
      cases h
      have hlen : (ArrayList.insert cs.2 cs.1 e).2.heap.length = s.heap.length := by
        rw [(insert_esf cs.2 cs.1 e).1, (getFrame_esf (get_frame s n cs.1 cs.2 (by rw [hg]))).1]
      simp only [updateEntity, entityAt, List.getD_eq_getElem?_getD,
        listGetD_set_self _ _ _ _ (by omega : e < (ArrayList.insert cs.2 cs.1 e).2.heap.length)]
      exact linkTo_self_mem _ _

theorem joinCollections_links_mono (ctx : Option String) (e : Nat) :
    ∀ (cs : List String) (s s' : KxState),
      EntityFactory.joinCollections ctx e s cs = .ok s' →
      ∀ (x : Nat) (y : String), y ∈ (entityAt s x).__collections →
        y ∈ (entityAt s' x).__collections := by
  intro cs
  induction cs with
  | nil =>
      intro s s' h x y hy
      cases h
      exact hy
  | cons c rest ih =>
      intro s s' h x y hy
      simp only [EntityFactory.joinCollections, bind, Except.bind] at h
      generalize hq : (match ctx with | some ctxv => ctxv ++ "." ++ c | none => c) = q at h
      cases ha : CollectionManager.addEntityTo s e q with
      | error err =>
          rw [ha] at h
          cases h
      | ok s₁ =>
          rw [ha] at h
          exact ih _ _ h x y
            (updateEntity_links_mono s₁ e _ (fun ent z => linkTo_mono ent _ z) x y
              (addEntityTo_links_mono s e q s₁ ha x y hy))

theorem joinCollections_mem (ctx : Option String) (e : Nat) :
    ∀ (cs : List String) (s s' : KxState),
      EntityFactory.joinCollections ctx e s cs = .ok s' →
      e < s.heap.length →
      ∀ c ∈ cs,
        (match ctx with | some ctxv => ctxv ++ "." ++ c | none => c)
          ∈ (entityAt s' e).__collections := by
  intro cs
  induction cs with
  | nil =>
      intro s s' h he c hc
      cases hc
  | cons c₀ rest ih =>
      intro s s' h he c hc
      simp only [EntityFactory.joinCollections, bind, Except.bind] at h
      rcases List.mem_cons.mp hc with hc | hc
      · subst hc
        generalize hq : (match ctx with | some ctxv => ctxv ++ "." ++ c | none => c) = q at h ⊢
        cases ha : CollectionManager.addEntityTo s e q with
        | error err =>
            rw [ha] at h
            cases h
        | ok s₁ =>
            rw [ha] at h
            apply joinCollections_links_mono ctx e rest _ _ h
            apply updateEntity_links_mono s₁ e (fun ent => ent.linkTo q)
              (fun ent z => linkTo_mono ent _ z)
            exact addEntityTo_self_mem s e _ s₁ ha he
      · generalize hq : (match ctx with | some ctxv => ctxv ++ "." ++ c₀ | none => c₀) = q at h
        cases ha : CollectionManager.addEntityTo s e q with
        | error err =>
            rw [ha] at h
            cases h
        | ok s₁ =>
            rw [ha] at h
            have he₂ : e < (updateEntity s₁ e (fun ent => ent.linkTo q)).heap.length := by
              have hlen₁ : s₁.heap.length = s.heap.length :=
                (addEntityTo_esf _ _ _ _ ha).1
              simp only [updateEntity, List.length_set]
              omega
            exact ih _ _ h he₂ c hc

theorem create_ok_join (s : KxState) (T : String) (params : List (String × Val))
    (r : Nat) (s' : KxState) (proto : PrototypeSchema)
    (hT : lookupA s.types T = some proto)
    (h : EntityFactory.create s T params = .ok (r, s')) :
    ∃ s₂ : KxState, EntityFactory.joinCollections (EntityFactory.contextOf T) r s₂
        proto.collections = .ok s' := by
  simp only [EntityFactory.create, EntityFactory.resolveType, hT, bind, Except.bind,
    EntityFactory.create.allocFresh] at h
  cases hp : lookupA s.pools T with
  | none =>
      rw [hp] at h
      dsimp only at h
      split at h
      · exact Except.noConfusion h
      · next v heq =>
          have h2 := Except.ok.inj h
          rw [Prod.mk.injEq] at h2
          obtain ⟨h1, h3⟩ := h2
          subst h1
          subst h3
          exact ⟨_, heq⟩
  | some pool =>
      rw [hp] at h
      dsimp only at h
      cases hg : pool.getLast? with
      | none =>
          rw [hg] at h
          dsimp only at h
          split at h
          · exact Except.noConfusion h
          · next v heq =>
              have h2 := Except.ok.inj h
              rw [Prod.mk.injEq] at h2
              obtain ⟨h1, h3⟩ := h2
              subst h1
              subst h3
              exact ⟨_, heq⟩
      | some e =>
          rw [hg] at h
          dsimp only at h
          split at h
          · exact Except.noConfusion h
          · next v heq =>
              have h2 := Except.ok.inj h
              rw [Prod.mk.injEq] at h2
              obtain ⟨h1, h3⟩ := h2
              subst h1
              subst h3
              exact ⟨_, heq⟩

/-- C2 (confirmed): `resetEntityState` leaves an entity with exactly its
prototype's attribute keys carrying freshly deep-copied default values (every
non-internal-looking key outside the prototype's attribute set — including ad
hoc keys a previous user attached — is deleted), no children and no
collection memberships; and `create` then joins the entity to every
collection named in the prototype's collections set (qualified by the derived
namespace context). -/
theorem resetEntityState_complete :
    (∀ (env : CtorEnv) (ent : Entity) (proto : PrototypeSchema),
      (proto.attributes.map Prod.fst).Nodup →
      (∀ k, k ∈ ent.attrs.map Prod.fst → jsStartsWith "_" k = false) →
      (∀ k, k ∈ (EntityFactory.resetEntityState env ent proto).attrs.map Prod.fst
          ↔ k ∈ proto.attributes.map Prod.fst)
      ∧ (∀ k v, (k, v) ∈ proto.attributes →
          lookupA (EntityFactory.resetEntityState env ent proto).attrs k
            = some (deepCopy env v))
      ∧ (EntityFactory.resetEntityState env ent proto).children = []
      ∧ (EntityFactory.resetEntityState env ent proto).collections = [])
    ∧ (∀ (s : KxState) (T : String) (params : List (String × Val))
        (proto : PrototypeSchema) (r : Nat) (s' : KxState),
        lookupA s.types T = some proto →
        EntityFactory.create s T params = .ok (r, s') →
        r < s'.heap.length →
        ∀ c ∈ proto.collections,
          (match EntityFactory.contextOf T with
            | some ctx => ctx ++ "." ++ c
            | none => c) ∈ (entityAt s' r).collections) := by
  constructor
  · intro env ent proto hnd hext
    refine ⟨?_, ?_, rfl, rfl⟩
    · intro k
      unfold EntityFactory.resetEntityState
      dsimp only
      rw [mem_keys_deepAssignFields]
      constructor
      · rintro (hk | hk)
        · simp only [List.mem_map, List.mem_filter] at hk
          obtain ⟨kv, ⟨hkv, hp⟩, hkk⟩ := hk
          subst hkk
          have hs : jsStartsWith "_" kv.1 = false :=
            hext kv.1 (List.mem_map_of_mem Prod.fst hkv)
          rw [hs] at hp
          simp only [Bool.false_or] at hp
          simpa using hp
        · exact hk
      · intro hk
        exact Or.inr hk
    · intro k v hkv
      unfold EntityFactory.resetEntityState
      dsimp only
      exact lookupA_deepAssignFields_mem env _ _ _ _ hnd hkv
  · intro s T params proto r s' hT h hr c hc
    obtain ⟨s₂, hj⟩ := create_ok_join s T params r s' proto hT h
    have hlen := (joinCollections_esf _ _ _ _ _ hj).1
    exact joinCollections_mem _ _ _ _ _ hj (by omega) c hc

/-- Witness for C2: resetting the used fixture entity restores the default,
drops the ad hoc key, clears children and memberships; and the recycled
`create` of the C1 fixture re-joins `Players`. -/
theorem resetEntityState_complete_witness :
    lookupA (EntityFactory.resetEntityState (fun _ => []) c2Ent c2Proto).attrs "hp"
      = some (deepCopy (fun _ => []) (.num 5))
    ∧ ("junk" ∈ (EntityFactory.resetEntityState (fun _ => []) c2Ent c2Proto).attrs.map Prod.fst
        ↔ "junk" ∈ c2Proto.attributes.map Prod.fst)
    ∧ (EntityFactory.resetEntityState (fun _ => []) c2Ent c2Proto).children = []
    ∧ (EntityFactory.resetEntityState (fun _ => []) c2Ent c2Proto).collections = []
    ∧ "Players" ∈ (entityAt c1After 0).collections := by
  have ha := resetEntityState_complete.1 (fun _ => []) c2Ent c2Proto (by decide) (by decide)
  have hb := resetEntityState_complete.2 c1State "P" []
    (.mk "P" [("hp", .num 5)] ["Players"] []) 0 c1After rfl rfl (by decide)
    "Players" (by decide)
  exact ⟨ha.2.1 "hp" (.num 5) (List.mem_cons_self _ _), ha.1 "junk",
    ha.2.2.1, ha.2.2.2, hb⟩

theorem IM_insts_ge (scene : String) :
    ∀ (ts : List (String × String)) (s : KxState),
      ∃ ex, (CollectionManager.instantiateMissing s scene ts).insts = s.insts ++ ex := by
  intro ts
  induction ts with
  | nil =>
      intro s
      exact ⟨[], by simp [CollectionManager.instantiateMissing]⟩
  | cons nc rest ih =>
      intro s
      cases nc with
      | mk n' c' =>
        by_cases hcond : (lookupA ((CollectionManager.sceneMapOf s scene).getD []) n').isSome = true
        · simpa [CollectionManager.instantiateMissing, hcond] using ih s
        · simp only [CollectionManager.instantiateMissing, hcond, Bool.false_eq_true,
            ite_false]
          obtain ⟨ex, hex⟩ := ih ({ s with
                insts := s.insts ++ [{ className := c', entities := [], ids := [], __changed := false }],
                sceneCollections := setKey s.sceneCollections scene
                  (setKey ((CollectionManager.sceneMapOf s scene).getD []) n' s.insts.length) })
          exact ⟨{ className := c', entities := [], ids := [], __changed := false } :: ex,
            by simpa using hex⟩

theorem IM_fields (scene : String) :
    ∀ (ts : List (String × String)) (s : KxState),
      (CollectionManager.instantiateMissing s scene ts).heap = s.heap
      ∧ (CollectionManager.instantiateMissing s scene ts).activeScene = s.activeScene
      ∧ (CollectionManager.instantiateMissing s scene ts).collectionTemplates
          = s.collectionTemplates := by
  intro ts
  induction ts with
  | nil =>
      intro s
      exact ⟨rfl, rfl, rfl⟩
  | cons nc rest ih =>
      intro s
      cases nc with
      | mk n' c' =>
        by_cases hcond : (lookupA ((CollectionManager.sceneMapOf s scene).getD []) n').isSome = true
        · simpa [CollectionManager.instantiateMissing, hcond] using ih s
        · simp only [CollectionManager.instantiateMissing, hcond, Bool.false_eq_true,
            ite_false]
          exact ih _

theorem IM_instAt (scene : String) (ts : List (String × String)) (s : KxState)
    (i : Nat) (hi : i < s.insts.length) :
    instAt (CollectionManager.instantiateMissing s scene ts) i = instAt s i := by
  obtain ⟨ex, hex⟩ := IM_insts_ge scene ts s
  simp only [instAt, List.getD_eq_getElem?_getD, hex]
  exact listGetD_append_left _ _ _ _ hi

theorem IM_scene_other (scene sc : String) (hne : sc ≠ scene) :
    ∀ (ts : List (String × String)) (s : KxState),
      lookupA (CollectionManager.instantiateMissing s scene ts).sceneCollections sc
        = lookupA s.sceneCollections sc := by
  intro ts
  induction ts with
  | nil =>
      intro s
      rfl
  | cons nc rest ih =>
      intro s
      cases nc with
      | mk n' c' =>
        by_cases hcond : (lookupA ((CollectionManager.sceneMapOf s scene).getD []) n').isSome = true
        · simpa [CollectionManager.instantiateMissing, hcond] using ih s
        · simp only [CollectionManager.instantiateMissing, hcond, Bool.false_eq_true,
            ite_false]
          rw [ih _]
          exact lookupA_setKey_ne _ _ _ _ hne

theorem IM_preserve (scene : String) (n : String) (r : Nat) :
    ∀ (ts : List (String × String)) (s : KxState) (m : List (String × Nat)),
      lookupA s.sceneCollections scene = some m →
      lookupA m n = some r →
      ∃ m', lookupA (CollectionManager.instantiateMissing s scene ts).sceneCollections scene
          = some m' ∧ lookupA m' n = some r := by
  intro ts
  induction ts with
  | nil =>
      intro s m hsc hr
      exact ⟨m, hsc, hr⟩
  | cons nc rest ih =>
      intro s m hsc hr
      cases nc with
      | mk n' c' =>
        have hm : (CollectionManager.sceneMapOf s scene).getD [] = m := by
          simp [CollectionManager.sceneMapOf, hsc]
        by_cases hcond : (lookupA ((CollectionManager.sceneMapOf s scene).getD []) n').isSome = true
        · simp only [CollectionManager.instantiateMissing, hcond, ite_true]
          exact ih s m hsc hr
        · simp only [CollectionManager.instantiateMissing, hcond, Bool.false_eq_true,
            ite_false]
          have hne : n ≠ n' := by
            intro he
            rw [hm, ← he] at hcond
            rw [hr] at hcond
            simp at hcond
          refine ih _ (setKey m n' s.insts.length) ?_ ?_
          · rw [hm]
            exact lookupA_setKey_self _ _ _
          · rw [lookupA_setKey_ne _ _ _ _ hne]
            exact hr

theorem IM_cover (scene : String) (n c : String) :
    ∀ (ts : List (String × String)) (s : KxState) (m : List (String × Nat)),
      (ts.map Prod.fst).Nodup →
      lookupA s.sceneCollections scene = some m →
      lookupA m n = none →
      (n, c) ∈ ts →
      ∃ rr m',
        lookupA (CollectionManager.instantiateMissing s scene ts).sceneCollections scene
          = some m'
        ∧ lookupA m' n = some rr
        ∧ s.insts.length ≤ rr
        ∧ instAt (CollectionManager.instantiateMissing s scene ts) rr
            = { className := c, entities := [], ids := [], __changed := false } := by
  intro ts
  induction ts with
  | nil =>
      intro s m _ _ _ hmem
      cases hmem
  | cons nc rest ih =>
      intro s m hnd hsc hnone hmem
      cases nc with
      | mk n' c' =>
        have hnd' : n' ∉ rest.map Prod.fst ∧ (rest.map Prod.fst).Nodup := by
          simpa [List.nodup_cons] using hnd
        have hm : (CollectionManager.sceneMapOf s scene).getD [] = m := by
          simp [CollectionManager.sceneMapOf, hsc]
        rcases List.mem_cons.mp hmem with hmem | hmem
        · rw [Prod.mk.injEq] at hmem
          obtain ⟨hn, hc⟩ := hmem
          subst hn
          subst hc
          have hcond : (lookupA ((CollectionManager.sceneMapOf s scene).getD []) n).isSome = false := by
            rw [hm, hnone]
            rfl
          rw [CollectionManager.instantiateMissing]
          simp only [hcond, Bool.false_eq_true, ite_false]
          have hsc' : lookupA
              ({ s with
                  insts := s.insts ++ [{ className := c, entities := [], ids := [], __changed := false }],
                  sceneCollections := setKey s.sceneCollections scene
                    (setKey ((CollectionManager.sceneMapOf s scene).getD []) n s.insts.length) } : KxState).sceneCollections scene
              = some (setKey m n s.insts.length) := by
            rw [hm]
            exact lookupA_setKey_self _ _ _
          obtain ⟨m', hm', hr'⟩ := IM_preserve scene n s.insts.length rest _ _ hsc'
            (lookupA_setKey_self _ _ _)
          refine ⟨s.insts.length, m', hm', hr', le_refl _, ?_⟩
          rw [IM_instAt scene rest _ s.insts.length (by simp)]
          simp only [instAt, List.getD_eq_getElem?_getD]
          exact listGetD_append_self _ _ _
        · have hne : n ≠ n' := by
            intro he
            apply hnd'.1
            rw [← he]
            exact List.mem_map_of_mem Prod.fst hmem
          by_cases hcond : (lookupA ((CollectionManager.sceneMapOf s scene).getD []) n').isSome = true
          · simp only [CollectionManager.instantiateMissing, hcond, ite_true]
            exact ih s m hnd'.2 hsc hnone hmem
          · simp only [CollectionManager.instantiateMissing, hcond, Bool.false_eq_true,
              ite_false]
            obtain ⟨rr, m', hm', hr', hge, hfresh⟩ := ih ({ s with
                insts := s.insts ++ [{ className := c', entities := [], ids := [], __changed := false }],
                sceneCollections := setKey s.sceneCollections scene
                  (setKey ((CollectionManager.sceneMapOf s scene).getD []) n' s.insts.length) }) (setKey m n' s.insts.length)
              hnd'.2 (by rw [hm]; exact lookupA_setKey_self _ _ _)
              (by rw [lookupA_setKey_ne _ _ _ _ hne]; exact hnone) hmem
            refine ⟨rr, m', hm', hr', ?_, hfresh⟩
            simp only [List.length_append, List.length_cons, List.length_nil] at hge
            omega

theorem addEntityTo_other_insts (s₀ : KxState) (e : Nat) (n : String) (i : Nat)
    (s₁ s' : KxState)
    (hg : CollectionManager.get s₀ n = .ok (i, s₁))
    (h : CollectionManager.addEntityTo s₀ e n = .ok s')
    (j : Nat) (hj : j ≠ i) : instAt s' j = instAt s₁ j := by
  unfold CollectionManager.addEntityTo at h
  simp only [bind, Except.bind] at h
  rw [hg] at h
  cases h
  have h1 : instAt (updateEntity (ArrayList.insert s₁ i e).2 e
      (fun ent => ent.linkTo n)) j = instAt (ArrayList.insert s₁ i e).2 j := rfl
  rw [h1]
  unfold ArrayList.insert
  dsimp only
  by_cases hc : (instAt s₁ i).entities.contains e = true
  · rw [if_pos hc]
  · rw [if_neg hc]
    simp only [instAt, updateEntity, List.getD_eq_getElem?_getD]
    exact listGetD_set_ne _ _ _ _ _ (fun he => hj he.symm)

theorem switchScene_eq_revisit (s : KxState) (scene : String)
    (hne : ¬ scene = s.activeScene) (m : List (String × Nat))
    (hm : lookupA s.sceneCollections scene = some m) :
    CollectionManager.switchScene s scene
      = { CollectionManager.instantiateMissing s scene s.collectionTemplates with
          activeScene := scene } := by
  unfold CollectionManager.switchScene
  rw [if_neg hne, hm]
  rfl

theorem switchScene_eq_fresh (s : KxState) (scene : String)
    (hne : ¬ scene = s.activeScene)
    (hm : lookupA s.sceneCollections scene = none) :
    CollectionManager.switchScene s scene
      = { CollectionManager.instantiateMissing
            { s with sceneCollections := setKey s.sceneCollections scene [] }
            scene s.collectionTemplates with activeScene := scene } := by
  unfold CollectionManager.switchScene
  rw [if_neg hne, hm]
  rfl

/-- C4 (confirmed): inserting entities while scene `A` is active touches no
other collection instance, a first switch to a fresh scene `B` serves a
brand-new empty instance of every registered collection `C` (so `A`'s
insertions are invisible through `get(C)`), `A`'s own instance record stays
untouched, and switching back to `A` makes `get(C)` return the exact same
instance as before with its membership preserved verbatim. -/
theorem scene_isolation :
    (∀ (s₀ : KxState) (e : Nat) (n : String) (i : Nat) (s₁ s' : KxState),
      CollectionManager.get s₀ n = .ok (i, s₁) →
      CollectionManager.addEntityTo s₀ e n = .ok s' →
      ∀ j, j ≠ i → instAt s' j = instAt s₁ j)
    ∧ (∀ (s : KxState) (A B C ctor : String) (mA : List (String × Nat)) (iA : Nat),
      s.activeScene = A →
      lookupA s.sceneCollections A = some mA →
      lookupA mA C = some iA →
      iA < s.insts.length →
      lookupA s.sceneCollections B = none →
      B ≠ A →
      (C, ctor) ∈ s.collectionTemplates →
      (s.collectionTemplates.map Prod.fst).Nodup →
      ∃ iB,
        CollectionManager.get (CollectionManager.switchScene s B) C
          = .ok (iB, CollectionManager.switchScene s B)
        ∧ s.insts.length ≤ iB
        ∧ iB ≠ iA
        ∧ (instAt (CollectionManager.switchScene s B) iB).entities = []
        ∧ instAt (CollectionManager.switchScene s B) iA = instAt s iA
        ∧ CollectionManager.get
            (CollectionManager.switchScene (CollectionManager.switchScene s B) A) C
          = .ok (iA, CollectionManager.switchScene (CollectionManager.switchScene s B) A)
        ∧ instAt (CollectionManager.switchScene (CollectionManager.switchScene s B) A) iA
          = instAt s iA) := by
  constructor
  · exact addEntityTo_other_insts
  · intro s A B C ctor mA iA hA hmA hC hiA hB hBA hT hnd
    have hBact : ¬ (B = s.activeScene) := by
      rw [hA]
      exact hBA
    have hs1 := switchScene_eq_fresh s B hBact hB
    have hscB : lookupA ({ s with sceneCollections := setKey s.sceneCollections B [] }
        : KxState).sceneCollections B = some [] := lookupA_setKey_self _ _ _
    obtain ⟨rr, m', hm', hr', hge, hfresh⟩ := IM_cover B C ctor s.collectionTemplates
      { s with sceneCollections := setKey s.sceneCollections B [] } [] hnd hscB rfl hT
    have hge' : s.insts.length ≤ rr := hge
    have hiAne : rr ≠ iA := by
      intro he
      omega
    have hget1 : CollectionManager.get (CollectionManager.switchScene s B) C
        = .ok (rr, CollectionManager.switchScene s B) := by
      rw [hs1]
      simp [CollectionManager.get, CollectionManager.sceneMapOf, bind, Except.bind,
        pure, Except.pure, hm', hr']
    have hfresh1 : (instAt (CollectionManager.switchScene s B) rr).entities = [] := by
      rw [hs1]
      show (instAt (CollectionManager.instantiateMissing
        { s with sceneCollections := setKey s.sceneCollections B [] }
        B s.collectionTemplates) rr).entities = []
      rw [hfresh]
    have hiA' : iA < ({ s with sceneCollections := setKey s.sceneCollections B [] }
        : KxState).insts.length := hiA
    have hiA1 : instAt (CollectionManager.switchScene s B) iA = instAt s iA := by
      rw [hs1]
      show instAt (CollectionManager.instantiateMissing
        { s with sceneCollections := setKey s.sceneCollections B [] }
        B s.collectionTemplates) iA = instAt s iA
      rw [IM_instAt B s.collectionTemplates _ iA hiA']
      rfl
    have hmA1 : lookupA (CollectionManager.switchScene s B).sceneCollections A
        = some mA := by
      rw [hs1]
      show lookupA (CollectionManager.instantiateMissing
        { s with sceneCollections := setKey s.sceneCollections B [] }
        B s.collectionTemplates).sceneCollections A = some mA
      rw [IM_scene_other B A (Ne.symm hBA), lookupA_setKey_ne _ _ _ _ (Ne.symm hBA)]
      exact hmA
    have hact1 : (CollectionManager.switchScene s B).activeScene = B := by
      rw [hs1]
    have hAact : ¬ (A = (CollectionManager.switchScene s B).activeScene) := by
      rw [hact1]
      exact Ne.symm hBA
    have hs2 := switchScene_eq_revisit (CollectionManager.switchScene s B) A hAact mA hmA1
    obtain ⟨m'', hm'', hr''⟩ := IM_preserve A C iA
      (CollectionManager.switchScene s B).collectionTemplates
      (CollectionManager.switchScene s B) mA hmA1 hC
    have hget2 : CollectionManager.get
        (CollectionManager.switchScene (CollectionManager.switchScene s B) A) C
        = .ok (iA, CollectionManager.switchScene (CollectionManager.switchScene s B) A) := by
      rw [hs2]
      simp [CollectionManager.get, CollectionManager.sceneMapOf, bind, Except.bind,
        pure, Except.pure, hm'', hr'']
    have hlen1 : iA < (CollectionManager.switchScene s B).insts.length := by
      rw [hs1]
      obtain ⟨ex, hex⟩ := IM_insts_ge B s.collectionTemplates
        { s with sceneCollections := setKey s.sceneCollections B [] }
      show iA < (CollectionManager.instantiateMissing
        { s with sceneCollections := setKey s.sceneCollections B [] }
        B s.collectionTemplates).insts.length
      rw [hex]
      have hlen : ({ s with sceneCollections := setKey s.sceneCollections B [] }
          : KxState).insts.length = s.insts.length := rfl
      simp only [List.length_append, hlen]
      omega
    have hiA2 : instAt (CollectionManager.switchScene
        (CollectionManager.switchScene s B) A) iA = instAt s iA := by
      rw [hs2]
      show instAt (CollectionManager.instantiateMissing (CollectionManager.switchScene s B)
        A (CollectionManager.switchScene s B).collectionTemplates) iA = instAt s iA
      rw [IM_instAt A _ _ iA hlen1]
      exact hiA1
    exact ⟨rr, hget1, hge', hiAne, hfresh1, hiA1, hget2, hiA2⟩

/-- Witness for C4 on the concrete fixture: switching to fresh `level1` hides
the default scene's `Players` membership behind a brand-new empty instance,
and switching back restores the original instance verbatim. -/
theorem scene_isolation_witness :
    instAt (ArrayList.insert c4State 0 0).2 1 = instAt c4State 1
    ∧ (∃ iB,
        CollectionManager.get (CollectionManager.switchScene c4State "level1") "Players"
          = .ok (iB, CollectionManager.switchScene c4State "level1")
        ∧ c4State.insts.length ≤ iB
        ∧ iB ≠ 0
        ∧ (instAt (CollectionManager.switchScene c4State "level1") iB).entities = []
        ∧ instAt (CollectionManager.switchScene c4State "level1") 0 = instAt c4State 0
        ∧ CollectionManager.get
            (CollectionManager.switchScene
              (CollectionManager.switchScene c4State "level1") "default") "Players"
          = .ok (0, CollectionManager.switchScene
              (CollectionManager.switchScene c4State "level1") "default")
        ∧ instAt (CollectionManager.switchScene
              (CollectionManager.switchScene c4State "level1") "default") 0
          = instAt c4State 0) := by
  constructor
  · have h := scene_isolation.1 c4State 0 "Players" 0 c4State
      ((CollectionManager.addEntityTo c4State 0 "Players").toOption.getD mkKernox)
      rfl rfl 1 (by decide)
    simpa using h
  · exact scene_isolation.2 c4State "default" "level1" "Players" "Players"
      [("Players", 0)] 0 rfl rfl rfl (by decide) rfl (by decide) (by decide) (by decide)

end Kernox

